import Mathlib

/-!
# terraform-provider-eon: the EONAPI client and the resource adapters

A shallow embedding of `internal/client/client.go` and of the resource
adapters of `internal/provider`, followed by the properties proved about them.

Conventions of the embedding.

* A Go `string` is a `String`, a Go `int` an `Int` (no arithmetic is done on
  status codes, so no wrap-around can occur).
* A Go result pair `(*APIResponse, error)` is a pair of options: `none` is
  `nil`, and the error is represented by its message (`err.Error()`).
* The standard library is not part of the repository.  The functions of it the
  client calls (`json.Marshal`, `json.Unmarshal`, `url.QueryEscape`,
  `http.NewRequest`) are fields of `Lib`, and every theorem holds for every
  value of them.  The network is the `HTTPClient` of the `Client`: a function
  from the calls made so far and the request to the outcome of the exchange.
* Every `Get`/`Post` invocation is appended to a log of `Call`s, so that the
  order and the number of the client calls an adapter makes can be stated.
-/

namespace Eon

/-! ## Data model of the client -/

/-- An arbitrary decoded JSON value: what `encoding/json` stores in an
`interface{}` (numbers are kept as their literal text). -/
inductive JsonValue where
  | null
  | bool (b : Bool)
  | num (literal : String)
  | str (s : String)
  | arr (items : List JsonValue)
  | obj (fields : List (String × JsonValue))

/-- The struct `APIResponse`: the generic shape returned by every EONAPI endpoint.
`Result` is `none` for a nil interface. -/
structure APIResponse where
  APIVersion : String
  HTTPCode : String
  Result : Option JsonValue
  Status : String
  EONAPIKey : String

/-- A value of a flat request body: a string or a boolean. -/
inductive Val where
  | str (s : String)
  | bool (b : Bool)
  deriving DecidableEq, Repr

/-- A request body, a Go `map[string]string` or `map[string]interface{}`, as an
association list with distinct keys. -/
abbrev Body := List (String × Val)

/-- The value stored under key `k`, as `body[k]` reads it. -/
def Body.get (body : Body) (k : String) : Option Val :=
  match body with
  | [] => none
  | (k', v) :: rest => if k' = k then some v else Body.get rest k

/-- The assignment `body[k] = v`: replaces the value of an existing key, adds the key otherwise. -/
def Body.set (body : Body) (k : String) (v : Val) : Body :=
  match body with
  | [] => [(k, v)]
  | (k', v') :: rest => if k' = k then (k, v) :: rest else (k', v') :: Body.set rest k v

/-- The keys of a body. -/
def Body.keys (body : Body) : List String :=
  body.map Prod.fst

/-- An outgoing `*http.Request`. -/
structure Request where
  Method : String
  URL : String
  Body : String
  Header : List (String × String)
  deriving DecidableEq, Repr

/-- An incoming `*http.Response`, reduced to what `decodeResp` reads: the status
code and the outcome of `io.ReadAll(resp.Body)`. -/
structure Response where
  StatusCode : Int
  Body : Except String String

/-- One invocation of the client: `Get(endpoint)` or `Post(endpoint, body)`. -/
inductive Call where
  | get (endpoint : String)
  | post (endpoint : String) (body : Body)
  deriving DecidableEq, Repr

/-- The endpoint a call addresses. -/
def Call.endpoint : Call → String
  | .get e => e
  | .post e _ => e

/-- The `*http.Client` of a `Client`, as the outcome of an exchange given the
calls made so far (the current one included) and the URL or request. -/
structure HTTPClient where
  Get : List Call → String → Except String Response
  Do : List Call → Request → Except String Response

/-- The struct `Client`: wraps HTTP calls to the EONAPI. -/
structure Client where
  BaseURL : String
  Username : String
  APIKey : String
  HTTPClient : HTTPClient

/-- The standard-library functions the client calls. -/
structure Lib where
  /-- The function `json.Marshal` on a request body. -/
  jsonMarshal : Body → Except String String
  /-- The function `json.Unmarshal(body, &r)` for `r` an `APIResponse`. -/
  jsonUnmarshal : String → Except String APIResponse
  /-- The function `url.QueryEscape`. -/
  queryEscape : String → String
  /-- The error of `http.NewRequest(method, url, body)`, if any. -/
  newRequestErr : String → String → Option String
  /-- The verb `%q` of `fmt` on a string (`strconv.Quote`). -/
  fmtQuote : String → String

/-- A Go result `(*APIResponse, error)`. -/
abbrev Result := Option APIResponse × Option String

/-- The verb `%d` of `fmt` on an `int`. -/
def fmtInt (n : Int) : String := toString n

/-- The number a list of decimal digit characters denotes. -/
def digitsValue (l : List Char) : Nat :=
  l.foldl (fun acc c => 10 * acc + (c.toNat - 48)) 0

/-- Reads back a decimal numeral with an optional leading minus sign. -/
def parseDec (s : String) : Int :=
  if s.data.head? = some '-' then -((digitsValue s.data.tail : Nat) : Int)
  else ((digitsValue s.data : Nat) : Int)

/-! ## The client -/

/-- The message of the error `decodeResp` returns for a 401. -/
def authErrorMsg : String := "401 Unauthorized – check username/apiKey"

/-- The function `decodeResp`. -/
def decodeResp (lib : Lib) (resp : Response) : Result :=
  match resp.Body with
  | .error err => (none, some ("read body: " ++ err))
  | .ok body =>
    if resp.StatusCode = 401 then
      (none, some authErrorMsg)
    else
      match lib.jsonUnmarshal body with
      | .error _ => (none, some ("status " ++ fmtInt resp.StatusCode ++ ", raw: " ++ body))
      | .ok r =>
        if resp.StatusCode ≥ 400 then
          (some r, some ("API " ++ fmtInt resp.StatusCode ++ ": " ++ r.HTTPCode))
        else
          (some r, none)

/-- The function `strings.TrimRight`: removes the trailing characters that occur in `cutset`. -/
def stringsTrimRight (s cutset : String) : String :=
  ⟨s.data.rdropWhile (fun ch => decide (ch ∈ cutset.data))⟩

/-- The function `NewClient`: creates a new EONAPI HTTP client.  The network the new
`http.Client` talks to may depend on whether TLS verification is skipped. -/
def NewClient (net : Bool → HTTPClient) (baseURL username apiKey : String) (insecure : Bool) :
    Client :=
  { BaseURL := stringsTrimRight baseURL "/"
    Username := username
    APIKey := apiKey
    HTTPClient := net insecure }

/-- The method `authQS`. -/
def Client.authQS (lib : Lib) (c : Client) : String :=
  "username=" ++ lib.queryEscape c.Username ++ "&apiKey=" ++ lib.queryEscape c.APIKey

/-- The URL `Get` and `Post` build: `fmt.Sprintf("%s/%s?&%s", c.BaseURL, endpoint, c.authQS())`. -/
def Client.url (lib : Lib) (c : Client) (endpoint : String) : String :=
  c.BaseURL ++ "/" ++ endpoint ++ "?&" ++ c.authQS lib

/-- The method `Get`: an authenticated GET.  Returns the result and the extended call log. -/
def Client.Get (lib : Lib) (c : Client) (endpoint : String) (log : List Call) :
    Result × List Call :=
  let log' := log ++ [Call.get endpoint]
  let u := c.url lib endpoint
  match c.HTTPClient.Get log' u with
  | .error err => ((none, some ("GET " ++ endpoint ++ ": " ++ err)), log')
  | .ok resp => (decodeResp lib resp, log')

/-- The request `Post` builds: `http.NewRequest("POST", u, jsonBody)` with the JSON content type set. -/
def Client.postRequest (lib : Lib) (c : Client) (e jsonBody : String) : Request :=
  { Method := "POST", URL := c.url lib e, Body := jsonBody,
    Header := [("Content-Type", "application/json")] }

/-- The method `Post`: an authenticated POST with JSON body.  Returns the result
and the extended call log. -/
def Client.Post (lib : Lib) (c : Client) (endpoint : String) (body : Body) (log : List Call) :
    Result × List Call :=
  let log' := log ++ [Call.post endpoint body]
  let u := c.url lib endpoint
  match lib.jsonMarshal body with
  | .error err => ((none, some ("marshal " ++ endpoint ++ ": " ++ err)), log')
  | .ok jsonBody =>
    match lib.newRequestErr "POST" u with
    | some err => ((none, some ("request " ++ endpoint ++ ": " ++ err)), log')
    | none =>
      match c.HTTPClient.Do log' (c.postRequest lib endpoint jsonBody) with
      | .error err => ((none, some ("POST " ++ endpoint ++ ": " ++ err)), log')
      | .ok resp => (decodeResp lib resp, log')

/-- The method `CheckAuth`: validates credentials against getAuthenticationStatus.
Returns the error, if any, and the extended call log.  Reading `r.Status` through
a nil `r` is a run-time panic, which is reported here as an error. -/
def Client.CheckAuth (lib : Lib) (c : Client) (log : List Call) : Option String × List Call :=
  let out := c.Get lib "getAuthenticationStatus" log
  match out.1.2 with
  | some err => (some err, out.2)
  | none =>
    match out.1.1 with
    | none => (some "panic: nil pointer dereference", out.2)
    | some r =>
      if r.Status ≠ "Authorized" then (some ("not authorized: " ++ r.Status), out.2)
      else (none, out.2)

/-! ### One typed method per remote operation -/

/-- The method `CreateHost`. -/
def Client.CreateHost (lib : Lib) (c : Client) (body : Body) (log : List Call) :
    Result × List Call :=
  c.Post lib "createHost" body log

/-- The method `GetHost`. -/
def Client.GetHost (lib : Lib) (c : Client) (name : String) (log : List Call) :
    Result × List Call :=
  c.Post lib "getHost" [("hostName", Val.str name)] log

/-- The method `DeleteHost`. -/
def Client.DeleteHost (lib : Lib) (c : Client) (name : String) (exportFlag : Bool)
    (log : List Call) : Result × List Call :=
  c.Post lib "deleteHost" [("hostName", Val.str name), ("exportConfiguration", Val.bool exportFlag)] log

/-- The method `GetCommand`. -/
def Client.GetCommand (lib : Lib) (c : Client) (name : String) (log : List Call) :
    Result × List Call :=
  c.Post lib "getCommand" [("commandName", Val.str name)] log

/-- The method `ModifyCommand`. -/
def Client.ModifyCommand (lib : Lib) (c : Client) (name newName line desc : String)
    (log : List Call) : Result × List Call :=
  c.Post lib "modifyCommand"
    [("commandName", Val.str name), ("newCommandName", Val.str newName),
     ("commandLine", Val.str line), ("commandDescription", Val.str desc)] log

/-- The method `GetContact`. -/
def Client.GetContact (lib : Lib) (c : Client) (name : String) (log : List Call) :
    Result × List Call :=
  c.Post lib "getContact" [("contactName", Val.str name)] log

/-- The method `ModifyContact`. -/
def Client.ModifyContact (lib : Lib) (c : Client) (body : Body) (log : List Call) :
    Result × List Call :=
  c.Post lib "modifyContact" body log

/-- The method `GetContactGroup`. -/
def Client.GetContactGroup (lib : Lib) (c : Client) (name : String) (log : List Call) :
    Result × List Call :=
  c.Post lib "getContactGroup" [("contactGroupName", Val.str name)] log

/-- The method `ModifyContactGroup`. -/
def Client.ModifyContactGroup (lib : Lib) (c : Client) (body : Body) (log : List Call) :
    Result × List Call :=
  c.Post lib "modifyContactGroup" body log

/-- The method `ExportConfiguration`. -/
def Client.ExportConfiguration (lib : Lib) (c : Client) (job : String) (log : List Call) :
    Result × List Call :=
  c.Post lib "exportConfiguration" [("JobName", Val.str job)] log

/-- The method `AddHostTemplateToHost`. -/
def Client.AddHostTemplateToHost (lib : Lib) (c : Client) (tpl host : String) (exportFlag : Bool)
    (log : List Call) : Result × List Call :=
  c.Post lib "addHostTemplateToHost"
    [("templateHostName", Val.str tpl), ("hostName", Val.str host),
     ("exportConfiguration", Val.bool exportFlag)] log

/-- The method `AddCommand`. -/
def Client.AddCommand (lib : Lib) (c : Client) (name line desc : String) (log : List Call) :
    Result × List Call :=
  c.Post lib "addCommand"
    [("commandName", Val.str name), ("commandLine", Val.str line),
     ("commandDescription", Val.str desc)] log

/-- The method `DeleteCommand`. -/
def Client.DeleteCommand (lib : Lib) (c : Client) (name : String) (log : List Call) :
    Result × List Call :=
  c.Post lib "deleteCommand" [("commandName", Val.str name)] log

/-- The method `CreateContact`. -/
def Client.CreateContact (lib : Lib) (c : Client) (body : Body) (log : List Call) :
    Result × List Call :=
  c.Post lib "createContact" body log

/-- The method `DeleteContact`. -/
def Client.DeleteContact (lib : Lib) (c : Client) (name : String) (log : List Call) :
    Result × List Call :=
  c.Post lib "deleteContact" [("contactName", Val.str name)] log

/-- The method `CreateContactGroup`. -/
def Client.CreateContactGroup (lib : Lib) (c : Client) (name desc : String) (exportFlag : Bool)
    (log : List Call) : Result × List Call :=
  c.Post lib "createContactGroup"
    [("contactGroupName", Val.str name), ("description", Val.str desc),
     ("exportConfiguration", Val.bool exportFlag)] log

/-- The method `DeleteContactGroup`. -/
def Client.DeleteContactGroup (lib : Lib) (c : Client) (name : String) (log : List Call) :
    Result × List Call :=
  c.Post lib "deleteContactGroup" [("contactGroupName", Val.str name)] log

/-! ## Values of the plugin framework

The orchestrating runtime is not part of the repository.  Its values are
embedded as far as the adapters use them. -/

/-- A `types.String`: null, unknown or a known string. -/
inductive TfString where
  | null
  | unknown
  | known (s : String)
  deriving DecidableEq, Repr

/-- The method `IsNull` of `types.String`. -/
def TfString.IsNull : TfString → Bool
  | .null => true
  | _ => false

/-- The method `IsUnknown` of `types.String`. -/
def TfString.IsUnknown : TfString → Bool
  | .unknown => true
  | _ => false

/-- The method `ValueString` of `types.String`: the empty string unless known. -/
def TfString.ValueString : TfString → String
  | .known s => s
  | _ => ""

/-- A `types.Bool`: null, unknown or a known boolean. -/
inductive TfBool where
  | null
  | unknown
  | known (b : Bool)
  deriving DecidableEq, Repr

/-- The method `IsNull` of `types.Bool`. -/
def TfBool.IsNull : TfBool → Bool
  | .null => true
  | _ => false

/-- The method `ValueBool` of `types.Bool`: false unless known. -/
def TfBool.ValueBool : TfBool → Bool
  | .known b => b
  | _ => false

/-- The severity of a diagnostic. -/
inductive Severity where
  | error
  | warning
  deriving DecidableEq, Repr

/-- A diagnostic shown to the operator. -/
structure Diagnostic where
  Severity : Severity
  Summary : String
  Detail : String
  deriving DecidableEq, Repr

/-- The collection `diag.Diagnostics`. -/
abbrev Diagnostics := List Diagnostic

/-- The method `HasError` of `Diagnostics`. -/
def Diagnostics.HasError (ds : Diagnostics) : Bool :=
  ds.any (fun d => d.Severity = Severity.error)

/-- The method `Append` of `Diagnostics`: adds the diagnostics not yet present. -/
def Diagnostics.Append (ds new : Diagnostics) : Diagnostics :=
  new.foldl (fun acc d => if d ∈ acc then acc else acc ++ [d]) ds

/-- The method `AddError` of `Diagnostics`. -/
def Diagnostics.AddError (ds : Diagnostics) (summary detail : String) : Diagnostics :=
  Diagnostics.Append ds [⟨Severity.error, summary, detail⟩]

/-- The outcome of `req.Plan.Get(ctx, &m)` or `req.State.Get(ctx, &m)`: the
record read into `m` and the diagnostics of the conversion. -/
structure TfGet (M : Type) where
  value : M
  diags : Diagnostics

/-- What an operation leaves in `resp.State`: untouched (the runtime keeps what
it had put there, the prior state), replaced by a record, or removed. -/
inductive StateOut (M : Type) where
  | untouched
  | set (m : M)
  | removed
  deriving DecidableEq, Repr

/-- The response of a lifecycle operation. -/
structure OpResponse (M : Type) where
  Diagnostics : Diagnostics
  State : StateOut M

/-- A `resource.ReadRequest`. -/
structure ReadRequest (M : Type) where
  State : TfGet M

/-- A `resource.CreateRequest`. -/
structure CreateRequest (M : Type) where
  Plan : TfGet M

/-- A `resource.DeleteRequest`. -/
structure DeleteRequest (M : Type) where
  State : TfGet M

/-- A `resource.UpdateRequest`. -/
structure UpdateRequest (M : Type) where
  Plan : TfGet M
  State : TfGet M

/-- What `resp.State.Set(ctx, &m)` reports for a record of the model's own type: nothing. -/
def stateSetDiags : Diagnostics := []

/-- A `time.Time`: an instant, as a count of nanoseconds since the Unix epoch. -/
structure Time where
  nanos : Int
  deriving DecidableEq, Repr

/-- The method `Unix` of `time.Time`: the whole seconds since the epoch (rounded down). -/
def Time.Unix (t : Time) : Int := t.nanos / 1000000000

/-! ## Host -/

/-- The struct `hostResource`. -/
structure hostResource where
  client : Client

/-- The struct `hostModel`. -/
structure hostModel where
  ID : TfString
  Name : TfString
  IP : TfString
  Alias : TfString
  Template : TfString
  Contact : TfString
  ContactGroup : TfString
  Export : TfBool
  deriving DecidableEq, Repr

/-- The method `hostBody`. -/
def hostResource.hostBody (m : hostModel) : Body :=
  let body : Body :=
    [("templateHostName", Val.str m.Template.ValueString),
     ("hostName", Val.str m.Name.ValueString),
     ("hostIp", Val.str m.IP.ValueString),
     ("hostAlias", Val.str m.Alias.ValueString),
     ("exportConfiguration", Val.bool m.Export.ValueBool)]
  let body :=
    if !m.Contact.IsNull && !m.Contact.IsUnknown then
      body.set "contactName" (Val.str m.Contact.ValueString)
    else body
  let body :=
    if !m.ContactGroup.IsNull && !m.ContactGroup.IsUnknown then
      body.set "contactGroupName" (Val.str m.ContactGroup.ValueString)
    else body
  body

/-- The method `Read` of `hostResource`. -/
def hostResource.Read (lib : Lib) (r : hostResource) (req : ReadRequest hostModel)
    (log : List Call) : OpResponse hostModel × List Call :=
  let diags := Diagnostics.Append [] req.State.diags
  if diags.HasError then (⟨diags, .untouched⟩, log)
  else
    let state := req.State.value
    let out := r.client.GetHost lib state.Name.ValueString log
    match out.1.2 with
    | some _ => (⟨diags, .removed⟩, out.2)
    | none => (⟨diags.Append stateSetDiags, .set state⟩, out.2)

/-- The method `Update` of `hostResource`: delete, then recreate. -/
def hostResource.Update (lib : Lib) (r : hostResource) (req : UpdateRequest hostModel)
    (log : List Call) : OpResponse hostModel × List Call :=
  let diags := Diagnostics.Append [] req.Plan.diags
  if diags.HasError then (⟨diags, .untouched⟩, log)
  else
    let plan := req.Plan.value
    let del := r.client.DeleteHost lib plan.Name.ValueString false log
    match del.1.2 with
    | some err => (⟨diags.AddError "Error deleting host for update" err, .untouched⟩, del.2)
    | none =>
      let cre := r.client.CreateHost lib (hostResource.hostBody plan) del.2
      match cre.1.2 with
      | some err => (⟨diags.AddError "Error recreating host" err, .untouched⟩, cre.2)
      | none =>
        let plan := { plan with ID := plan.Name }
        (⟨diags.Append stateSetDiags, .set plan⟩, cre.2)

/-! ## Command -/

/-- The struct `commandResource`. -/
structure commandResource where
  client : Client

/-- The struct `commandModel`. -/
structure commandModel where
  ID : TfString
  Name : TfString
  CommandLine : TfString
  Description : TfString
  deriving DecidableEq, Repr

/-- The method `Read` of `commandResource`. -/
def commandResource.Read (lib : Lib) (r : commandResource) (req : ReadRequest commandModel)
    (log : List Call) : OpResponse commandModel × List Call :=
  let diags := Diagnostics.Append [] req.State.diags
  if diags.HasError then (⟨diags, .untouched⟩, log)
  else
    let state := req.State.value
    let out := r.client.GetCommand lib state.Name.ValueString log
    match out.1.2 with
    | some _ => (⟨diags, .removed⟩, out.2)
    | none => (⟨diags.Append stateSetDiags, .set state⟩, out.2)

/-- The method `Update` of `commandResource`. -/
def commandResource.Update (lib : Lib) (r : commandResource) (req : UpdateRequest commandModel)
    (log : List Call) : OpResponse commandModel × List Call :=
  let diags := (Diagnostics.Append [] req.Plan.diags).Append req.State.diags
  if diags.HasError then (⟨diags, .untouched⟩, log)
  else
    let plan := req.Plan.value
    let state := req.State.value
    let newName :=
      if plan.Name.ValueString ≠ state.Name.ValueString then plan.Name.ValueString else ""
    let out := r.client.ModifyCommand lib state.Name.ValueString newName
      plan.CommandLine.ValueString plan.Description.ValueString log
    match out.1.2 with
    | some err => (⟨diags.AddError "Error updating command" err, .untouched⟩, out.2)
    | none =>
      let plan := { plan with ID := plan.Name }
      (⟨diags.Append stateSetDiags, .set plan⟩, out.2)

/-! ## Contact -/

/-- The struct `contactResource`. -/
structure contactResource where
  client : Client

/-- The struct `contactModel`. -/
structure contactModel where
  ID : TfString
  Name : TfString
  Alias : TfString
  Mail : TfString
  Pager : TfString
  ContactGroup : TfString
  Export : TfBool
  deriving DecidableEq, Repr

/-- The method `contactBody`. -/
def contactResource.contactBody (m : contactModel) : Body :=
  let body : Body :=
    [("contactName", Val.str m.Name.ValueString),
     ("contactAlias", Val.str m.Alias.ValueString),
     ("contactMail", Val.str m.Mail.ValueString),
     ("contactPager", Val.str m.Pager.ValueString),
     ("exportConfiguration", Val.bool m.Export.ValueBool)]
  let body :=
    if !m.ContactGroup.IsNull && !m.ContactGroup.IsUnknown then
      body.set "contactGroup" (Val.str m.ContactGroup.ValueString)
    else body
  body

/-- The method `Read` of `contactResource`. -/
def contactResource.Read (lib : Lib) (r : contactResource) (req : ReadRequest contactModel)
    (log : List Call) : OpResponse contactModel × List Call :=
  let diags := Diagnostics.Append [] req.State.diags
  if diags.HasError then (⟨diags, .untouched⟩, log)
  else
    let state := req.State.value
    let out := r.client.GetContact lib state.Name.ValueString log
    match out.1.2 with
    | some _ => (⟨diags, .removed⟩, out.2)
    | none => (⟨diags.Append stateSetDiags, .set state⟩, out.2)

/-- The body `Update` of `contactResource` sends to `ModifyContact`. -/
def contactResource.updateBody (plan state : contactModel) : Body :=
  let body := contactResource.contactBody plan
  let body := body.set "contactName" (Val.str state.Name.ValueString)
  let body :=
    if plan.Name.ValueString ≠ state.Name.ValueString then
      body.set "newContactName" (Val.str plan.Name.ValueString)
    else body
  body

/-- The method `Update` of `contactResource`. -/
def contactResource.Update (lib : Lib) (r : contactResource) (req : UpdateRequest contactModel)
    (log : List Call) : OpResponse contactModel × List Call :=
  let diags := (Diagnostics.Append [] req.Plan.diags).Append req.State.diags
  if diags.HasError then (⟨diags, .untouched⟩, log)
  else
    let plan := req.Plan.value
    let state := req.State.value
    let body := contactResource.updateBody plan state
    let out := r.client.ModifyContact lib body log
    match out.1.2 with
    | some err => (⟨diags.AddError "Error updating contact" err, .untouched⟩, out.2)
    | none =>
      let plan := { plan with ID := plan.Name }
      (⟨diags.Append stateSetDiags, .set plan⟩, out.2)

/-! ## Contact group -/

/-- The struct `contactGroupResource`. -/
structure contactGroupResource where
  client : Client

/-- The struct `contactGroupModel`. -/
structure contactGroupModel where
  ID : TfString
  Name : TfString
  Description : TfString
  Export : TfBool
  deriving DecidableEq, Repr

/-- The method `Read` of `contactGroupResource`. -/
def contactGroupResource.Read (lib : Lib) (r : contactGroupResource)
    (req : ReadRequest contactGroupModel) (log : List Call) :
    OpResponse contactGroupModel × List Call :=
  let diags := Diagnostics.Append [] req.State.diags
  if diags.HasError then (⟨diags, .untouched⟩, log)
  else
    let state := req.State.value
    let out := r.client.GetContactGroup lib state.Name.ValueString log
    match out.1.2 with
    | some _ => (⟨diags, .removed⟩, out.2)
    | none => (⟨diags.Append stateSetDiags, .set state⟩, out.2)

/-- The body `Update` of `contactGroupResource` sends to `ModifyContactGroup`. -/
def contactGroupResource.updateBody (plan state : contactGroupModel) : Body :=
  let body : Body :=
    [("contactGroupName", Val.str state.Name.ValueString),
     ("description", Val.str plan.Description.ValueString),
     ("exportConfiguration", Val.bool plan.Export.ValueBool)]
  let body :=
    if plan.Name.ValueString ≠ state.Name.ValueString then
      body.set "newContactGroupName" (Val.str plan.Name.ValueString)
    else body
  body

/-- The method `Update` of `contactGroupResource`. -/
def contactGroupResource.Update (lib : Lib) (r : contactGroupResource)
    (req : UpdateRequest contactGroupModel) (log : List Call) :
    OpResponse contactGroupModel × List Call :=
  let diags := (Diagnostics.Append [] req.Plan.diags).Append req.State.diags
  if diags.HasError then (⟨diags, .untouched⟩, log)
  else
    let plan := req.Plan.value
    let state := req.State.value
    let body := contactGroupResource.updateBody plan state
    let out := r.client.ModifyContactGroup lib body log
    match out.1.2 with
    | some err => (⟨diags.AddError "Error updating contact group" err, .untouched⟩, out.2)
    | none =>
      let plan := { plan with ID := plan.Name }
      (⟨diags.Append stateSetDiags, .set plan⟩, out.2)

/-! ## Export trigger -/

/-- The struct `exportConfigResource`. -/
structure exportConfigResource where
  client : Client

/-- The struct `exportConfigModel`. -/
structure exportConfigModel where
  ID : TfString
  JobName : TfString
  deriving DecidableEq, Repr

/-- The synthetic identifier stamped when the clock reads `now`:
`fmt.Sprintf("export-%d", now.Unix())`. -/
def exportConfigResource.stampID (now : Time) : String :=
  "export-" ++ fmtInt now.Unix

/-- The method `Create` of `exportConfigResource`.  The clock is read once, by
`time.Now()`, after the export call has returned without error: `now` is that
reading, which is later than the instant Create was invoked by the duration of the
export call. -/
def exportConfigResource.Create (lib : Lib) (r : exportConfigResource)
    (req : CreateRequest exportConfigModel) (now : Time) (log : List Call) :
    OpResponse exportConfigModel × List Call :=
  let diags := Diagnostics.Append [] req.Plan.diags
  if diags.HasError then (⟨diags, .untouched⟩, log)
  else
    let plan := req.Plan.value
    let out := r.client.ExportConfiguration lib plan.JobName.ValueString log
    match out.1.2 with
    | some err => (⟨diags.AddError "Error exporting configuration" err, .untouched⟩, out.2)
    | none =>
      let plan := { plan with ID := TfString.known (exportConfigResource.stampID now) }
      (⟨diags.Append stateSetDiags, .set plan⟩, out.2)

/-! ## Create, Delete and the Read of the export trigger

A Delete leaves `resp.State` untouched: the runtime removes the record afterwards
when the response carries no error. -/

/-- The method `Create` of `hostResource`. -/
def hostResource.Create (lib : Lib) (r : hostResource) (req : CreateRequest hostModel)
    (log : List Call) : OpResponse hostModel × List Call :=
  let diags := Diagnostics.Append [] req.Plan.diags
  if diags.HasError then (⟨diags, .untouched⟩, log)
  else
    let plan := req.Plan.value
    let out := r.client.CreateHost lib (hostResource.hostBody plan) log
    match out.1.2 with
    | some err => (⟨diags.AddError "Error creating host" err, .untouched⟩, out.2)
    | none =>
      let plan := { plan with ID := plan.Name }
      (⟨diags.Append stateSetDiags, .set plan⟩, out.2)

/-- The method `Delete` of `hostResource`. -/
def hostResource.Delete (lib : Lib) (r : hostResource) (req : DeleteRequest hostModel)
    (log : List Call) : OpResponse hostModel × List Call :=
  let diags := Diagnostics.Append [] req.State.diags
  if diags.HasError then (⟨diags, .untouched⟩, log)
  else
    let state := req.State.value
    let out := r.client.DeleteHost lib state.Name.ValueString state.Export.ValueBool log
    match out.1.2 with
    | some err =>
      (⟨diags.AddError "Error deleting host"
          ("Could not delete host " ++ lib.fmtQuote state.Name.ValueString ++ ": " ++ err),
        .untouched⟩, out.2)
    | none => (⟨diags, .untouched⟩, out.2)

/-- The method `Create` of `commandResource`. -/
def commandResource.Create (lib : Lib) (r : commandResource) (req : CreateRequest commandModel)
    (log : List Call) : OpResponse commandModel × List Call :=
  let diags := Diagnostics.Append [] req.Plan.diags
  if diags.HasError then (⟨diags, .untouched⟩, log)
  else
    let plan := req.Plan.value
    let out := r.client.AddCommand lib plan.Name.ValueString plan.CommandLine.ValueString
      plan.Description.ValueString log
    match out.1.2 with
    | some err => (⟨diags.AddError "Error creating command" err, .untouched⟩, out.2)
    | none =>
      let plan := { plan with ID := plan.Name }
      (⟨diags.Append stateSetDiags, .set plan⟩, out.2)

/-- The method `Delete` of `commandResource`. -/
def commandResource.Delete (lib : Lib) (r : commandResource) (req : DeleteRequest commandModel)
    (log : List Call) : OpResponse commandModel × List Call :=
  let diags := Diagnostics.Append [] req.State.diags
  if diags.HasError then (⟨diags, .untouched⟩, log)
  else
    let state := req.State.value
    let out := r.client.DeleteCommand lib state.Name.ValueString log
    match out.1.2 with
    | some err =>
      (⟨diags.AddError "Error deleting command"
          ("Could not delete command " ++ lib.fmtQuote state.Name.ValueString ++ ": " ++ err),
        .untouched⟩, out.2)
    | none => (⟨diags, .untouched⟩, out.2)

/-- The method `Create` of `contactResource`. -/
def contactResource.Create (lib : Lib) (r : contactResource) (req : CreateRequest contactModel)
    (log : List Call) : OpResponse contactModel × List Call :=
  let diags := Diagnostics.Append [] req.Plan.diags
  if diags.HasError then (⟨diags, .untouched⟩, log)
  else
    let plan := req.Plan.value
    let out := r.client.CreateContact lib (contactResource.contactBody plan) log
    match out.1.2 with
    | some err => (⟨diags.AddError "Error creating contact" err, .untouched⟩, out.2)
    | none =>
      let plan := { plan with ID := plan.Name }
      (⟨diags.Append stateSetDiags, .set plan⟩, out.2)

/-- The method `Delete` of `contactResource`. -/
def contactResource.Delete (lib : Lib) (r : contactResource) (req : DeleteRequest contactModel)
    (log : List Call) : OpResponse contactModel × List Call :=
  let diags := Diagnostics.Append [] req.State.diags
  if diags.HasError then (⟨diags, .untouched⟩, log)
  else
    let state := req.State.value
    let out := r.client.DeleteContact lib state.Name.ValueString log
    match out.1.2 with
    | some err =>
      (⟨diags.AddError "Error deleting contact"
          ("Could not delete contact " ++ lib.fmtQuote state.Name.ValueString ++ ": " ++ err),
        .untouched⟩, out.2)
    | none => (⟨diags, .untouched⟩, out.2)

/-- The method `Create` of `contactGroupResource`. -/
def contactGroupResource.Create (lib : Lib) (r : contactGroupResource)
    (req : CreateRequest contactGroupModel) (log : List Call) :
    OpResponse contactGroupModel × List Call :=
  let diags := Diagnostics.Append [] req.Plan.diags
  if diags.HasError then (⟨diags, .untouched⟩, log)
  else
    let plan := req.Plan.value
    let out := r.client.CreateContactGroup lib plan.Name.ValueString
      plan.Description.ValueString plan.Export.ValueBool log
    match out.1.2 with
    | some err => (⟨diags.AddError "Error creating contact group" err, .untouched⟩, out.2)
    | none =>
      let plan := { plan with ID := plan.Name }
      (⟨diags.Append stateSetDiags, .set plan⟩, out.2)

/-- The method `Delete` of `contactGroupResource`. -/
def contactGroupResource.Delete (lib : Lib) (r : contactGroupResource)
    (req : DeleteRequest contactGroupModel) (log : List Call) :
    OpResponse contactGroupModel × List Call :=
  let diags := Diagnostics.Append [] req.State.diags
  if diags.HasError then (⟨diags, .untouched⟩, log)
  else
    let state := req.State.value
    let out := r.client.DeleteContactGroup lib state.Name.ValueString log
    match out.1.2 with
    | some err =>
      (⟨diags.AddError "Error deleting contact group"
          ("Could not delete " ++ lib.fmtQuote state.Name.ValueString ++ ": " ++ err),
        .untouched⟩, out.2)
    | none => (⟨diags, .untouched⟩, out.2)

/-- The method `Read` of `exportConfigResource`: re-persists the state, without a client call. -/
def exportConfigResource.Read (req : ReadRequest exportConfigModel) (log : List Call) :
    OpResponse exportConfigModel × List Call :=
  let diags := Diagnostics.Append [] req.State.diags
  (⟨diags.Append stateSetDiags, .set req.State.value⟩, log)

/-- The method `Delete` of `exportConfigResource`: nothing to destroy. -/
def exportConfigResource.Delete (_req : DeleteRequest exportConfigModel) (log : List Call) :
    OpResponse exportConfigModel × List Call :=
  (⟨[], .untouched⟩, log)

/-! ## Provider -/

/-- The struct `eonProviderModel`. -/
structure eonProviderModel where
  URL : TfString
  Username : TfString
  APIKey : TfString
  Insecure : TfBool
  deriving DecidableEq, Repr

/-- A `provider.ConfigureRequest`. -/
structure ConfigureRequest where
  Config : TfGet eonProviderModel

/-- A `provider.ConfigureResponse`: the diagnostics and the client handed to the
data sources and to the resource adapters (`none` when none is handed out). -/
structure ConfigureResponse where
  Diagnostics : Diagnostics
  DataSourceData : Option Client
  ResourceData : Option Client

/-- The function `envOrVal`; `getenv` is `os.Getenv`. -/
def envOrVal (getenv : String → String) (val : TfString) (envKey : String) : String :=
  if !val.IsNull && !val.IsUnknown then val.ValueString
  else getenv envKey

/-- The method `Configure` of `eonProvider`. -/
def eonProvider.Configure (lib : Lib) (getenv : String → String) (net : Bool → HTTPClient)
    (req : ConfigureRequest) (log : List Call) : ConfigureResponse × List Call :=
  let diags := Diagnostics.Append [] req.Config.diags
  if diags.HasError then (⟨diags, none, none⟩, log)
  else
    let cfg := req.Config.value
    let eonURL := envOrVal getenv cfg.URL "EON_URL"
    let username := envOrVal getenv cfg.Username "EON_USERNAME"
    let apiKey := envOrVal getenv cfg.APIKey "EON_API_KEY"
    if eonURL = "" then
      (⟨diags.AddError "Missing url" "Set 'url' in provider block or EON_URL env var.",
        none, none⟩, log)
    else if username = "" then
      (⟨diags.AddError "Missing username"
          "Set 'username' in provider block or EON_USERNAME env var.", none, none⟩, log)
    else if apiKey = "" then
      (⟨diags.AddError "Missing api_key"
          "Set 'api_key' in provider block or EON_API_KEY env var.", none, none⟩, log)
    else
      let insecure := if !cfg.Insecure.IsNull then cfg.Insecure.ValueBool else false
      let c := NewClient net eonURL username apiKey insecure
      let auth := c.CheckAuth lib log
      match auth.1 with
      | some err => (⟨diags.AddError "EONAPI authentication failed" err, none, none⟩, auth.2)
      | none => (⟨diags, some c, some c⟩, auth.2)

/-! ## Sample values -/

/-- A message contains a text when the text is a contiguous part of it. -/
abbrev Contains (msg part : String) : Prop := part.data <:+: msg.data

/-- A response body carrying an envelope whose `Status` is "Authorized". -/
def authorizedBody : String :=
  "\x7b\"api_version\":\"2.4.2\",\"http_code\":\"200 OK\",\"Status\":\"Authorized\"\x7d"

/-- The envelope `authorizedBody` decodes to. -/
def authorizedEnvelope : APIResponse :=
  { APIVersion := "2.4.2", HTTPCode := "200 OK", Result := none,
    Status := "Authorized", EONAPIKey := "" }

/-- A response body carrying an envelope that reports a failure. -/
def notFoundBody : String :=
  "\x7b\"http_code\":\"404 Not Found\",\"result\":\"unknown host\"\x7d"

/-- The envelope `notFoundBody` decodes to. -/
def notFoundEnvelope : APIResponse :=
  { APIVersion := "", HTTPCode := "404 Not Found", Result := some (JsonValue.str "unknown host"),
    Status := "", EONAPIKey := "" }

/-- A response body that is not JSON. -/
def htmlBody : String := "<html>Bad Gateway</html>"

/-- A `json.Unmarshal` that agrees with `encoding/json` on the sample bodies and
rejects every other text. -/
def sampleUnmarshal (body : String) : Except String APIResponse :=
  if body = authorizedBody then .ok authorizedEnvelope
  else if body = notFoundBody then .ok notFoundEnvelope
  else .error "invalid character looking for beginning of value"

/-- A sample library: marshalling and request construction succeed. -/
def sampleLib : Lib :=
  { jsonMarshal := fun _ => .ok "\x7b\x7d"
    jsonUnmarshal := sampleUnmarshal
    queryEscape := fun s => s
    newRequestErr := fun _ _ => none
    fmtQuote := fun s => "\"" ++ s ++ "\"" }

/-- A network that answers every exchange with the given response. -/
def constHTTP (resp : Response) : HTTPClient :=
  { Get := fun _ _ => .ok resp, Do := fun _ _ => .ok resp }

/-- A network on which every exchange fails with the given transport error. -/
def failHTTP (err : String) : HTTPClient :=
  { Get := fun _ _ => .error err, Do := fun _ _ => .error err }

/-- A network on which every exchange fails with the requested URL as the error text. -/
def echoHTTP : HTTPClient :=
  { Get := fun _ u => .error u, Do := fun _ req => .error req.URL }

/-- A network that answers every exchange with the given response, except the
POST calls to one endpoint, which fail with the given transport error. -/
def failOnHTTP (endpoint : String) (resp : Response) (err : String) : HTTPClient :=
  { Get := fun _ _ => .ok resp
    Do := fun log _ =>
      if log.getLast?.map Call.endpoint = some endpoint then .error err else .ok resp }

/-- A process environment in which only EON_USERNAME and EON_URL are set. -/
def sampleGetenv (envKey : String) : String :=
  if envKey = "EON_USERNAME" then "admin"
  else if envKey = "EON_URL" then "https://env.example/eonapi"
  else ""

/-- A provider block that sets url and api_key and leaves username and insecure out. -/
def sampleProviderConfig : eonProviderModel :=
  { URL := .known "https://eon.example/eonapi/", Username := .null, APIKey := .known "k3y",
    Insecure := .null }

/-- A sample client over the given network. -/
def sampleClient (http : HTTPClient) : Client :=
  { BaseURL := "https://eon.example", Username := "admin", APIKey := "k3y", HTTPClient := http }

/-- A 200 response whose envelope reports success. -/
def okResponse : Response := ⟨200, .ok authorizedBody⟩

/-- A tracked host. -/
def sampleHost : hostModel :=
  { ID := .known "h1", Name := .known "h1", IP := .known "10.0.0.1", Alias := .known "",
    Template := .known "GENERIC_HOST", Contact := .null, ContactGroup := .null,
    Export := .known false }

/-- A plan for the tracked host with another address. -/
def sampleHostPlan : hostModel :=
  { sampleHost with IP := .known "10.0.0.2" }

/-- A tracked command named "a". -/
def sampleCommand : commandModel :=
  { ID := .known "a", Name := .known "a", CommandLine := .known "$USER1$/check_http",
    Description := .known "" }

/-- A tracked contact named "a". -/
def sampleContact : contactModel :=
  { ID := .known "a", Name := .known "a", Alias := .known "", Mail := .known "a@example.org",
    Pager := .known "", ContactGroup := .null, Export := .known false }

/-- A tracked contact group named "a". -/
def sampleContactGroup : contactGroupModel :=
  { ID := .known "a", Name := .known "a", Description := .known "contact group",
    Export := .known false }

/-- A plan for an export trigger. -/
def sampleExport : exportConfigModel :=
  { ID := .unknown, JobName := .known "terraform" }

/-! ## Properties of the client -/

theorem Client.Get_ok (lib : Lib) (c : Client) (e : String) (log : List Call) (resp : Response)
    (h : c.HTTPClient.Get (log ++ [Call.get e]) (c.url lib e) = .ok resp) :
    c.Get lib e log = (decodeResp lib resp, log ++ [Call.get e]) := by
  simp [Client.Get, h]

theorem Client.Get_error (lib : Lib) (c : Client) (e : String) (log : List Call) (err : String)
    (h : c.HTTPClient.Get (log ++ [Call.get e]) (c.url lib e) = .error err) :
    c.Get lib e log = ((none, some ("GET " ++ e ++ ": " ++ err)), log ++ [Call.get e]) := by
  simp [Client.Get, h]

theorem Client.Post_ok (lib : Lib) (c : Client) (e : String) (b : Body) (log : List Call)
    (jb : String) (resp : Response)
    (hm : lib.jsonMarshal b = .ok jb) (hr : lib.newRequestErr "POST" (c.url lib e) = none)
    (h : c.HTTPClient.Do (log ++ [Call.post e b]) (c.postRequest lib e jb) = .ok resp) :
    c.Post lib e b log = (decodeResp lib resp, log ++ [Call.post e b]) := by
  simp [Client.Post, hm, hr, h]

theorem Client.Post_log (lib : Lib) (c : Client) (e : String) (b : Body) (log : List Call) :
    (c.Post lib e b log).2 = log ++ [Call.post e b] := by
  unfold Client.Post
  cases lib.jsonMarshal b <;> simp only []
  cases lib.newRequestErr "POST" (c.url lib e) <;> simp only []
  split <;> rfl

theorem decodeResp_parsed_ge_400 (lib : Lib) (status : Int) (body : String) (r : APIResponse)
    (hge : status ≥ 400) (hne : status ≠ 401) (hparse : lib.jsonUnmarshal body = .ok r) :
    decodeResp lib ⟨status, .ok body⟩ =
      (some r, some ("API " ++ fmtInt status ++ ": " ++ r.HTTPCode)) := by
  simp [decodeResp, hne, hparse, hge]

theorem Client.Post_marshal_error (lib : Lib) (c : Client) (e : String) (b : Body)
    (log : List Call) (err : String) (hm : lib.jsonMarshal b = .error err) :
    c.Post lib e b log = ((none, some ("marshal " ++ e ++ ": " ++ err)), log ++ [Call.post e b]) := by
  simp [Client.Post, hm]

theorem Client.Post_request_error (lib : Lib) (c : Client) (e : String) (b : Body)
    (log : List Call) (jb err : String) (hm : lib.jsonMarshal b = .ok jb)
    (hr : lib.newRequestErr "POST" (c.url lib e) = some err) :
    c.Post lib e b log = ((none, some ("request " ++ e ++ ": " ++ err)), log ++ [Call.post e b]) := by
  simp [Client.Post, hm, hr]

theorem Client.Post_error (lib : Lib) (c : Client) (e : String) (b : Body) (log : List Call)
    (jb err : String)
    (hm : lib.jsonMarshal b = .ok jb) (hr : lib.newRequestErr "POST" (c.url lib e) = none)
    (h : c.HTTPClient.Do (log ++ [Call.post e b]) (c.postRequest lib e jb) = .error err) :
    c.Post lib e b log = ((none, some ("POST " ++ e ++ ": " ++ err)), log ++ [Call.post e b]) := by
  simp [Client.Post, hm, hr, h]

theorem contains_middle (a e b : String) : Contains (a ++ e ++ b) e := by
  refine ⟨a.data, b.data, ?_⟩
  simp [String.data_append]

theorem contains_suffix (a e : String) : Contains (a ++ e) e := by
  refine ⟨a.data, [], ?_⟩
  simp [String.data_append]

theorem contains_append_right {m e : String} (t : String) (h : Contains m e) :
    Contains (m ++ t) e := by
  obtain ⟨p, q, hpq⟩ := h
  refine ⟨p, q ++ t.data, ?_⟩
  simp [String.data_append, ← hpq]

theorem ne_of_head_ne {s t : String} (h : s.data.head? ≠ t.data.head?) : s ≠ t := by
  intro hst
  exact h (by rw [hst])

theorem authErrorMsg_ne_status (n : Int) (raw : String) :
    authErrorMsg ≠ "status " ++ fmtInt n ++ ", raw: " ++ raw := by
  apply ne_of_head_ne
  simp [authErrorMsg, String.data_append]

theorem authErrorMsg_ne_api (n : Int) (code : String) :
    authErrorMsg ≠ "API " ++ fmtInt n ++ ": " ++ code := by
  apply ne_of_head_ne
  simp [authErrorMsg, String.data_append]

/-- C1 (counterexample): status 401 is at least 400 and the body parses as an
envelope, yet `decodeResp` returns no envelope. -/
theorem decodeResp_401_drops_envelope :
    (401 : Int) ≥ 400 ∧ (∃ r, sampleLib.jsonUnmarshal authorizedBody = .ok r) ∧
      (decodeResp sampleLib ⟨401, .ok authorizedBody⟩).1 = none := by
  refine ⟨by decide, ⟨authorizedEnvelope, rfl⟩, rfl⟩

/-- C1 (amended): for every status code of at least 400 other than 401 and every
body that parses as the envelope `r`, `decodeResp`, and so `Get` and `Post` when the
network answers with that response, return both the parsed envelope `r` and the
error "API <status>: <http_code>". -/
theorem decodeResp_error_status_returns_envelope_and_error (lib : Lib) (status : Int)
    (body : String) (r : APIResponse)
    (hge : status ≥ 400) (hne : status ≠ 401) (hparse : lib.jsonUnmarshal body = .ok r) :
    decodeResp lib ⟨status, .ok body⟩ =
        (some r, some ("API " ++ fmtInt status ++ ": " ++ r.HTTPCode)) ∧
      (∀ (c : Client) (e : String) (log : List Call),
        c.HTTPClient.Get (log ++ [Call.get e]) (c.url lib e) = .ok ⟨status, .ok body⟩ →
        (c.Get lib e log).1 = (some r, some ("API " ++ fmtInt status ++ ": " ++ r.HTTPCode))) ∧
      (∀ (c : Client) (e : String) (b : Body) (log : List Call) (jb : String),
        lib.jsonMarshal b = .ok jb → lib.newRequestErr "POST" (c.url lib e) = none →
        c.HTTPClient.Do (log ++ [Call.post e b]) (c.postRequest lib e jb)
          = .ok ⟨status, .ok body⟩ →
        (c.Post lib e b log).1 = (some r, some ("API " ++ fmtInt status ++ ": " ++ r.HTTPCode))) := by
  have hd := decodeResp_parsed_ge_400 lib status body r hge hne hparse
  refine ⟨hd, ?_, ?_⟩
  · intro c e log h
    rw [Client.Get_ok lib c e log _ h, hd]
  · intro c e b log jb hm hr h
    rw [Client.Post_ok lib c e b log jb _ hm hr h, hd]

/-- C1 (witness): a 404 whose body carries an envelope yields that envelope and
the error "API 404: 404 Not Found". -/
theorem decodeResp_error_status_returns_envelope_and_error_witness :
    decodeResp sampleLib ⟨404, .ok notFoundBody⟩ =
      (some notFoundEnvelope, some "API 404: 404 Not Found") :=
  (decodeResp_error_status_returns_envelope_and_error sampleLib 404 notFoundBody
    notFoundEnvelope (by decide) (by decide) rfl).1

/-- C2: for every body, a 401 response makes `decodeResp` return no envelope
and the error "401 Unauthorized – check username/apiKey"; the result is the same for
every body and every JSON decoder (no parsing is attempted), and the message differs
from every parse-failure message "status <n>, raw: <body>" and from every
application-error message "API <n>: <http_code>". -/
theorem decodeResp_401_authentication_error (lib : Lib) (body : String) :
    decodeResp lib ⟨401, .ok body⟩ = (none, some "401 Unauthorized – check username/apiKey") ∧
      (∀ (lib' : Lib) (body' : String),
        decodeResp lib' ⟨401, .ok body'⟩ = decodeResp lib ⟨401, .ok body⟩) ∧
      (∀ (n : Int) (raw : String),
        "401 Unauthorized – check username/apiKey" ≠ "status " ++ fmtInt n ++ ", raw: " ++ raw) ∧
      (∀ (n : Int) (code : String),
        "401 Unauthorized – check username/apiKey" ≠ "API " ++ fmtInt n ++ ": " ++ code) := by
  refine ⟨by simp [decodeResp, authErrorMsg], ?_, ?_, ?_⟩
  · intro lib' body'
    simp [decodeResp]
  · intro n raw
    exact authErrorMsg_ne_status n raw
  · intro n code
    exact authErrorMsg_ne_api n code

/-- C3: for every status code other than 401 and every body the JSON decoder
rejects, `decodeResp` returns no envelope and the error "status <code>, raw: <body>",
which contains the decimal status code and the whole raw body. -/
theorem decodeResp_unparseable_body (lib : Lib) (status : Int) (body err : String)
    (hne : status ≠ 401) (hparse : lib.jsonUnmarshal body = .error err) :
    decodeResp lib ⟨status, .ok body⟩ =
        (none, some ("status " ++ fmtInt status ++ ", raw: " ++ body)) ∧
      Contains ("status " ++ fmtInt status ++ ", raw: " ++ body) (fmtInt status) ∧
      Contains ("status " ++ fmtInt status ++ ", raw: " ++ body) body := by
  refine ⟨by simp [decodeResp, hne, hparse], ?_, ?_⟩
  · exact contains_append_right _ (contains_middle _ _ _)
  · exact contains_suffix _ _

/-- C3 (witness): a 200 response whose body is an HTML page. -/
theorem decodeResp_unparseable_body_witness :
    decodeResp sampleLib ⟨200, .ok htmlBody⟩ =
        (none, some "status 200, raw: <html>Bad Gateway</html>") ∧
      Contains "status 200, raw: <html>Bad Gateway</html>" "200" ∧
      Contains "status 200, raw: <html>Bad Gateway</html>" "<html>Bad Gateway</html>" :=
  decodeResp_unparseable_body sampleLib 200 htmlBody
    "invalid character looking for beginning of value" (by decide) rfl

theorem decodeResp_error_of_ge_400 (lib : Lib) (resp : Response) (hge : resp.StatusCode ≥ 400) :
    (decodeResp lib resp).2 ≠ none := by
  obtain ⟨status, rb⟩ := resp
  simp only at hge
  cases rb with
  | error e => simp [decodeResp]
  | ok body =>
    by_cases h401 : status = 401
    · simp [decodeResp, h401]
    · cases hp : lib.jsonUnmarshal body <;> simp [decodeResp, h401, hge, hp]

theorem decodeResp_no_error_iff (lib : Lib) (resp : Response) :
    (decodeResp lib resp).2 = none ↔
      ∃ body r, resp.Body = .ok body ∧ resp.StatusCode < 400 ∧
        lib.jsonUnmarshal body = .ok r ∧ (decodeResp lib resp).1 = some r := by
  obtain ⟨status, rb⟩ := resp
  cases rb with
  | error e => simp [decodeResp]
  | ok body =>
    by_cases h401 : status = 401
    · constructor
      · intro h; simp [decodeResp, h401] at h
      · rintro ⟨_, _, _, hlt, _, _⟩
        simp only at hlt
        omega
    · cases hp : lib.jsonUnmarshal body with
      | error e =>
        constructor
        · intro h; simp [decodeResp, h401, hp] at h
        · rintro ⟨b', r', hb', _, hp', _⟩
          simp only [Except.ok.injEq] at hb'
          subst hb'
          rw [hp] at hp'
          cases hp'
      | ok r =>
        by_cases hge : status ≥ 400
        · constructor
          · intro h; simp [decodeResp, h401, hp, hge] at h
          · rintro ⟨_, _, _, hlt, _, _⟩
            simp only at hlt
            omega
        · constructor
          · intro _
            exact ⟨body, r, rfl, by simp only; omega, hp, by simp [decodeResp, h401, hp, hge]⟩
          · intro _
            simp [decodeResp, h401, hp, hge]

/-- C4 (counterexample): the answer to getAuthenticationStatus carries an
envelope whose `Status` is "Authorized", with HTTP status 500, and `CheckAuth` fails. -/
theorem CheckAuth_fails_on_500_authorized :
    sampleLib.jsonUnmarshal authorizedBody = .ok authorizedEnvelope ∧
      authorizedEnvelope.Status = "Authorized" ∧
      ((sampleClient (constHTTP ⟨500, .ok authorizedBody⟩)).CheckAuth sampleLib []).1
        = some "API 500: 200 OK" := by
  refine ⟨rfl, rfl, rfl⟩

/-- C4 (amended): for every response to the getAuthenticationStatus query,
`CheckAuth` succeeds if and only if the response's status code is below 400, its body
parses as the envelope and the envelope's `Status` is "Authorized"; hence any other
`Status` value, any 401 response and any response with a status of 400 or more makes
it fail. -/
theorem CheckAuth_succeeds_iff (lib : Lib) (c : Client) (log : List Call) (resp : Response)
    (hresp : c.HTTPClient.Get (log ++ [Call.get "getAuthenticationStatus"])
      (c.url lib "getAuthenticationStatus") = .ok resp) :
    ((c.CheckAuth lib log).1 = none ↔
        ∃ body r, resp.Body = .ok body ∧ resp.StatusCode < 400 ∧
          lib.jsonUnmarshal body = .ok r ∧ r.Status = "Authorized") ∧
      (resp.StatusCode ≥ 400 → (c.CheckAuth lib log).1 ≠ none) := by
  have hget := Client.Get_ok lib c "getAuthenticationStatus" log resp hresp
  have hiff := decodeResp_no_error_iff lib resp
  have key : (c.CheckAuth lib log).1 = none ↔
      ∃ body r, resp.Body = .ok body ∧ resp.StatusCode < 400 ∧
        lib.jsonUnmarshal body = .ok r ∧ r.Status = "Authorized" := by
    unfold Client.CheckAuth
    simp only [hget]
    cases h2 : (decodeResp lib resp).2 with
    | some err =>
      simp only []
      constructor
      · intro h; simp at h
      · rintro ⟨body, r, hb, hlt, hp, _⟩
        have : (decodeResp lib resp).2 = none := by
          simp [decodeResp, hb, hp, show ¬ resp.StatusCode = 401 by omega,
            show ¬ resp.StatusCode ≥ 400 by omega]
        rw [this] at h2
        simp at h2
    | none =>
      obtain ⟨body, r, hb, hlt, hp, h1⟩ := hiff.mp h2
      simp only [h1]
      by_cases hs : r.Status = "Authorized"
      · simp only [hs, ne_eq, not_true_eq_false, if_false, true_iff]
        exact ⟨body, r, hb, hlt, hp, hs⟩
      · simp only [ne_eq, hs, not_false_eq_true, if_true]
        constructor
        · intro h; simp at h
        · rintro ⟨body', r', hb', _, hp', hs'⟩
          rw [hb] at hb'
          cases hb'
          rw [hp] at hp'
          cases hp'
          exact absurd hs' hs
  refine ⟨key, ?_⟩
  intro hge hnone
  obtain ⟨_, _, _, hlt, _, _⟩ := key.mp hnone
  omega

/-- C4 (witness): a 200 answer whose envelope says "Authorized" passes `CheckAuth`. -/
theorem CheckAuth_succeeds_iff_witness :
    ((sampleClient (constHTTP ⟨200, .ok authorizedBody⟩)).CheckAuth sampleLib []).1 = none :=
  ((CheckAuth_succeeds_iff sampleLib (sampleClient (constHTTP ⟨200, .ok authorizedBody⟩)) []
    ⟨200, .ok authorizedBody⟩ rfl).1).mpr
    ⟨authorizedBody, authorizedEnvelope, rfl, by decide, rfl, rfl⟩

/-- C5 (counterexample): status 302 lies outside 200..299, the body parses, and
`decodeResp` returns a nil error. -/
theorem decodeResp_302_is_success :
    ¬ ((200 : Int) ≤ 302 ∧ (302 : Int) ≤ 299) ∧
      (decodeResp sampleLib ⟨302, .ok authorizedBody⟩).2 = none := by
  refine ⟨by decide, rfl⟩

/-- C5 (amended): a status of 400 or more is an error condition of the client:
for every response whose status code is at least 400 and every body, `decodeResp`
(and so `Get` and `Post` when the network answers with that response) returns a
non-nil error. -/
theorem decodeResp_status_ge_400_is_error (lib : Lib) (resp : Response)
    (hge : resp.StatusCode ≥ 400) :
    (decodeResp lib resp).2 ≠ none ∧
      (∀ (c : Client) (e : String) (log : List Call),
        c.HTTPClient.Get (log ++ [Call.get e]) (c.url lib e) = .ok resp →
        (c.Get lib e log).1.2 ≠ none) ∧
      (∀ (c : Client) (e : String) (b : Body) (log : List Call) (jb : String),
        lib.jsonMarshal b = .ok jb → lib.newRequestErr "POST" (c.url lib e) = none →
        c.HTTPClient.Do (log ++ [Call.post e b]) (c.postRequest lib e jb) = .ok resp →
        (c.Post lib e b log).1.2 ≠ none) := by
  have hd := decodeResp_error_of_ge_400 lib resp hge
  refine ⟨hd, ?_, ?_⟩
  · intro c e log h
    rw [Client.Get_ok lib c e log _ h]
    exact hd
  · intro c e b log jb hm hr h
    rw [Client.Post_ok lib c e b log jb _ hm hr h]
    exact hd

/-- C5 (witness): a 503 whose body is not JSON is an error. -/
theorem decodeResp_status_ge_400_is_error_witness :
    (decodeResp sampleLib ⟨503, .ok htmlBody⟩).2 ≠ none :=
  (decodeResp_status_ge_400_is_error sampleLib ⟨503, .ok htmlBody⟩ (by decide)).1

/-- C6 (counterexample): `Post` to the endpoint "getHost" answered with a 401
fails with a message that does not contain the endpoint name. -/
theorem Post_401_error_lacks_endpoint :
    ((sampleClient (constHTTP ⟨401, .ok authorizedBody⟩)).Post sampleLib "getHost"
        [("hostName", Val.str "h1")] []).1.2 = some "401 Unauthorized – check username/apiKey" ∧
      ¬ Contains "401 Unauthorized – check username/apiKey" "getHost" := by
  refine ⟨rfl, by decide⟩

/-- C6 (amended): a failure that occurs before a response is decoded is wrapped
with the endpoint name: for every endpoint `e`, a transport failure of `Get` gives
"GET <e>: <cause>", and a marshal failure, a request-construction failure and a
transport failure of `Post` give "marshal <e>: <cause>", "request <e>: <cause>" and
"POST <e>: <cause>", each of which contains `e`.  Once a response is received, `Get`
and `Post` return what `decodeResp` returns for it (401, unparseable body, status of
400 or more), which does not depend on the endpoint. -/
theorem client_error_wrapping (lib : Lib) (c : Client) (e : String) (b : Body)
    (log : List Call) :
    (∀ err, c.HTTPClient.Get (log ++ [Call.get e]) (c.url lib e) = .error err →
        (c.Get lib e log).1 = (none, some ("GET " ++ e ++ ": " ++ err)) ∧
          Contains ("GET " ++ e ++ ": " ++ err) e) ∧
      (∀ err, lib.jsonMarshal b = .error err →
        (c.Post lib e b log).1 = (none, some ("marshal " ++ e ++ ": " ++ err)) ∧
          Contains ("marshal " ++ e ++ ": " ++ err) e) ∧
      (∀ jb err, lib.jsonMarshal b = .ok jb →
        lib.newRequestErr "POST" (c.url lib e) = some err →
        (c.Post lib e b log).1 = (none, some ("request " ++ e ++ ": " ++ err)) ∧
          Contains ("request " ++ e ++ ": " ++ err) e) ∧
      (∀ jb err, lib.jsonMarshal b = .ok jb → lib.newRequestErr "POST" (c.url lib e) = none →
        c.HTTPClient.Do (log ++ [Call.post e b]) (c.postRequest lib e jb) = .error err →
        (c.Post lib e b log).1 = (none, some ("POST " ++ e ++ ": " ++ err)) ∧
          Contains ("POST " ++ e ++ ": " ++ err) e) ∧
      (∀ resp, c.HTTPClient.Get (log ++ [Call.get e]) (c.url lib e) = .ok resp →
        (c.Get lib e log).1 = decodeResp lib resp) ∧
      (∀ jb resp, lib.jsonMarshal b = .ok jb → lib.newRequestErr "POST" (c.url lib e) = none →
        c.HTTPClient.Do (log ++ [Call.post e b]) (c.postRequest lib e jb) = .ok resp →
        (c.Post lib e b log).1 = decodeResp lib resp) := by
  have hc : ∀ (p err : String), Contains (p ++ e ++ ": " ++ err) e := fun p err =>
    contains_append_right _ (contains_append_right _ (contains_suffix _ _))
  refine ⟨?_, ?_, ?_, ?_, ?_, ?_⟩
  · intro err h
    exact ⟨by rw [Client.Get_error lib c e log err h], hc _ _⟩
  · intro err hm
    exact ⟨by rw [Client.Post_marshal_error lib c e b log err hm], hc _ _⟩
  · intro jb err hm hr
    exact ⟨by rw [Client.Post_request_error lib c e b log jb err hm hr], hc _ _⟩
  · intro jb err hm hr h
    exact ⟨by rw [Client.Post_error lib c e b log jb err hm hr h], hc _ _⟩
  · intro resp h
    rw [Client.Get_ok lib c e log resp h]
  · intro jb resp hm hr h
    rw [Client.Post_ok lib c e b log jb resp hm hr h]

/-- C6 (witness): on a network that refuses the connection, `Get` of
"getAuthenticationStatus" fails with a message naming the endpoint. -/
theorem client_error_wrapping_witness :
    ((sampleClient (failHTTP "connection refused")).Get sampleLib "getAuthenticationStatus" []).1
        = (none, some "GET getAuthenticationStatus: connection refused") ∧
      Contains "GET getAuthenticationStatus: connection refused" "getAuthenticationStatus" :=
  (client_error_wrapping sampleLib (sampleClient (failHTTP "connection refused"))
    "getAuthenticationStatus" [] []).1 "connection refused" rfl

/-! ## Decimal formatting -/

theorem digitChar_toNat_sub (k : Nat) (hk : k < 10) : (Nat.digitChar k).toNat - 48 = k := by
  interval_cases k <;> rfl

theorem digitChar_ne_minus (k : Nat) (hk : k < 10) : Nat.digitChar k ≠ '-' := by
  interval_cases k <;> decide

theorem foldl_toDigitsCore (fuel : Nat) :
    ∀ (n : Nat) (ds : List Char), n < fuel →
      (Nat.toDigitsCore 10 fuel n ds).foldl (fun acc c => 10 * acc + (c.toNat - 48)) 0
        = ds.foldl (fun acc c => 10 * acc + (c.toNat - 48)) n := by
  induction fuel with
  | zero => intro n ds h; omega
  | succ fuel ih =>
    intro n ds h
    have hd : (Nat.digitChar (n % 10)).toNat - 48 = n % 10 :=
      digitChar_toNat_sub _ (Nat.mod_lt _ (by decide))
    by_cases h0 : n / 10 = 0
    · simp only [Nat.toDigitsCore, h0, if_true, List.foldl_cons, hd]
      congr 1
      omega
    · simp only [Nat.toDigitsCore, h0, if_false]
      rw [ih (n / 10) _ (by omega)]
      simp only [List.foldl_cons, hd]
      congr 1
      omega

theorem digitsValue_toDigits (n : Nat) : digitsValue (Nat.toDigits 10 n) = n := by
  unfold digitsValue Nat.toDigits
  rw [foldl_toDigitsCore (n + 1) n [] (by omega)]
  rfl

theorem head_toDigitsCore (fuel : Nat) :
    ∀ (n : Nat) (ds : List Char), ds.head? ≠ some '-' →
      (Nat.toDigitsCore 10 fuel n ds).head? ≠ some '-' := by
  induction fuel with
  | zero => intro n ds h; simpa [Nat.toDigitsCore] using h
  | succ fuel ih =>
    intro n ds _
    have hd : Nat.digitChar (n % 10) ≠ '-' := digitChar_ne_minus _ (Nat.mod_lt _ (by decide))
    by_cases h0 : n / 10 = 0
    · simp only [Nat.toDigitsCore, h0, if_true, List.head?_cons, ne_eq, Option.some.injEq]
      exact hd
    · simp only [Nat.toDigitsCore, h0, if_false]
      apply ih
      simp only [List.head?_cons, ne_eq, Option.some.injEq]
      exact hd

theorem parseDec_fmtInt (n : Int) : parseDec (fmtInt n) = n := by
  cases n with
  | ofNat m =>
    have hdata : (fmtInt (Int.ofNat m)).data = Nat.toDigits 10 m := rfl
    have hh : (Nat.toDigits 10 m).head? ≠ some '-' :=
      head_toDigitsCore (m + 1) m [] (by simp)
    unfold parseDec
    rw [hdata, if_neg hh, digitsValue_toDigits]
    rfl
  | negSucc m =>
    have hdata : (fmtInt (Int.negSucc m)).data = '-' :: Nat.toDigits 10 (m + 1) := rfl
    unfold parseDec
    rw [hdata]
    simp only [List.head?_cons, if_true, List.tail_cons, digitsValue_toDigits]
    rfl

theorem fmtInt_injective {a b : Int} (h : fmtInt a = fmtInt b) : a = b := by
  rw [← parseDec_fmtInt a, ← parseDec_fmtInt b, h]

theorem stampID_eq_iff (t1 t2 : Time) :
    exportConfigResource.stampID t1 = exportConfigResource.stampID t2 ↔ t1.Unix = t2.Unix := by
  constructor
  · intro h
    apply fmtInt_injective
    have hd := congrArg String.data h
    simp only [exportConfigResource.stampID, String.data_append] at hd
    exact String.ext (List.append_cancel_left hd)
  · intro h
    simp [exportConfigResource.stampID, h]

/-! ## Properties of the adapters -/

theorem Diagnostics.HasError_Append (a b : Diagnostics) :
    (Diagnostics.Append a b).HasError = (a.HasError || b.HasError) := by
  induction b generalizing a with
  | nil => simp [Diagnostics.Append, Diagnostics.HasError]
  | cons d b ih =>
    have hstep : Diagnostics.Append a (d :: b)
        = Diagnostics.Append (if d ∈ a then a else a ++ [d]) b := rfl
    rw [hstep, ih]
    by_cases hd : d ∈ a
    · simp only [hd, if_true]
      by_cases he : d.Severity = Severity.error
      · have ha : Diagnostics.HasError a = true := by
          simp only [Diagnostics.HasError, List.any_eq_true, decide_eq_true_eq]
          exact ⟨d, hd, he⟩
        simp [ha]
      · simp [Diagnostics.HasError, he]
    · simp only [hd, if_false]
      simp [Diagnostics.HasError, Bool.or_assoc]

theorem Diagnostics.HasError_AddError (ds : Diagnostics) (summary detail : String) :
    (Diagnostics.AddError ds summary detail).HasError = true := by
  unfold Diagnostics.AddError
  rw [Diagnostics.HasError_Append]
  simp [Diagnostics.HasError]

theorem Diagnostics.HasError_Append_nil (ds : Diagnostics) :
    (Diagnostics.Append [] ds).HasError = ds.HasError := by
  rw [Diagnostics.HasError_Append]
  simp [Diagnostics.HasError]

/-- C7: in Host Update, when state and plan carry the same name `n`, the first
client call is the delete for host `n` and, if it succeeds, the second is the create
with the body built from the plan; and for every plan, if the delete call fails, the
delete is the only call made (create is never invoked), an error is reported and
the tracked state is not replaced. -/
theorem hostUpdate_delete_before_create (lib : Lib) (r : hostResource)
    (req : UpdateRequest hostModel) (log : List Call)
    (hplan : req.Plan.diags.HasError = false) :
    (∀ n, req.State.value.Name.ValueString = n → req.Plan.value.Name.ValueString = n →
        ((r.client.DeleteHost lib n false log).1.2 = none →
          (hostResource.Update lib r req log).2 = log ++
            [Call.post "deleteHost" [("hostName", Val.str n), ("exportConfiguration", Val.bool false)],
             Call.post "createHost" (hostResource.hostBody req.Plan.value)]) ∧
        ((r.client.DeleteHost lib n false log).1.2 ≠ none →
          (hostResource.Update lib r req log).2 = log ++
            [Call.post "deleteHost"
              [("hostName", Val.str n), ("exportConfiguration", Val.bool false)]])) ∧
      (∀ err, (r.client.DeleteHost lib req.Plan.value.Name.ValueString false log).1.2 = some err →
        (hostResource.Update lib r req log).2 = log ++
            [Call.post "deleteHost" [("hostName", Val.str req.Plan.value.Name.ValueString),
              ("exportConfiguration", Val.bool false)]] ∧
          (∀ body, Call.post "createHost" body ∉
            (hostResource.Update lib r req log).2.drop log.length) ∧
          (hostResource.Update lib r req log).1.Diagnostics.HasError = true ∧
          (hostResource.Update lib r req log).1.Diagnostics =
            (Diagnostics.Append [] req.Plan.diags).AddError "Error deleting host for update" err ∧
          (hostResource.Update lib r req log).1.State = StateOut.untouched) := by
  have hd : (Diagnostics.Append [] req.Plan.diags).HasError = false := by
    rw [Diagnostics.HasError_Append_nil]; exact hplan
  have hfail : ∀ err,
      (r.client.DeleteHost lib req.Plan.value.Name.ValueString false log).1.2 = some err →
      hostResource.Update lib r req log =
        (⟨(Diagnostics.Append [] req.Plan.diags).AddError "Error deleting host for update" err,
          StateOut.untouched⟩,
         log ++ [Call.post "deleteHost" [("hostName", Val.str req.Plan.value.Name.ValueString),
              ("exportConfiguration", Val.bool false)]]) := by
    intro err herr
    simp only [hostResource.Update, hd, herr]
    simp [Client.DeleteHost, Client.Post_log]
  have hok : (r.client.DeleteHost lib req.Plan.value.Name.ValueString false log).1.2 = none →
      (hostResource.Update lib r req log).2 = log ++
        [Call.post "deleteHost" [("hostName", Val.str req.Plan.value.Name.ValueString),
              ("exportConfiguration", Val.bool false)],
         Call.post "createHost" (hostResource.hostBody req.Plan.value)] := by
    intro hnone
    simp only [hostResource.Update, hd, hnone]
    cases hc : (r.client.CreateHost lib (hostResource.hostBody req.Plan.value)
        (r.client.DeleteHost lib req.Plan.value.Name.ValueString false log).2).1.2 <;>
      simp [hc, Client.CreateHost, Client.DeleteHost, Client.Post_log]
  refine ⟨?_, ?_⟩
  · intro n _ hn
    subst hn
    refine ⟨hok, ?_⟩
    intro hne
    cases herr : (r.client.DeleteHost lib req.Plan.value.Name.ValueString false log).1.2 with
    | none => exact absurd herr hne
    | some err => rw [hfail err herr]
  · intro err herr
    rw [hfail err herr]
    refine ⟨rfl, ?_, Diagnostics.HasError_AddError _ _ _, rfl, rfl⟩
    intro body
    simp

/-- C7 (witness): the tracked host "h1" and a plan with another address.  On a
network that answers 200 the calls are the delete for "h1", then the create; on a
network that refuses the connection the delete is the only call and the state is
left as it was. -/
theorem hostUpdate_delete_before_create_witness :
    (hostResource.Update sampleLib ⟨sampleClient (constHTTP okResponse)⟩
        ⟨⟨sampleHostPlan, []⟩, ⟨sampleHost, []⟩⟩ []).2 =
        [Call.post "deleteHost" [("hostName", Val.str "h1"), ("exportConfiguration", Val.bool false)],
         Call.post "createHost" (hostResource.hostBody sampleHostPlan)] ∧
      (hostResource.Update sampleLib ⟨sampleClient (failHTTP "connection refused")⟩
        ⟨⟨sampleHostPlan, []⟩, ⟨sampleHost, []⟩⟩ []).2 =
        [Call.post "deleteHost"
          [("hostName", Val.str "h1"), ("exportConfiguration", Val.bool false)]] ∧
      (hostResource.Update sampleLib ⟨sampleClient (failHTTP "connection refused")⟩
        ⟨⟨sampleHostPlan, []⟩, ⟨sampleHost, []⟩⟩ []).1.State = StateOut.untouched :=
  ⟨((hostUpdate_delete_before_create sampleLib ⟨sampleClient (constHTTP okResponse)⟩
      ⟨⟨sampleHostPlan, []⟩, ⟨sampleHost, []⟩⟩ [] rfl).1 "h1" rfl rfl).1 rfl,
   ((hostUpdate_delete_before_create sampleLib ⟨sampleClient (failHTTP "connection refused")⟩
      ⟨⟨sampleHostPlan, []⟩, ⟨sampleHost, []⟩⟩ [] rfl).2
        "POST deleteHost: connection refused" rfl).1,
   ((hostUpdate_delete_before_create sampleLib ⟨sampleClient (failHTTP "connection refused")⟩
      ⟨⟨sampleHostPlan, []⟩, ⟨sampleHost, []⟩⟩ [] rfl).2
        "POST deleteHost: connection refused" rfl).2.2.2.2⟩

/-- C8: for Command, Contact and Contact Group Update with state name `a` and
plan name `b`, `a ≠ b`, the one client call made is the modify call, whose body has
the identity field (commandName, contactName, contactGroupName) equal to `a`, the
rename field (newCommandName, newContactName, newContactGroupName) equal to `b`, and
every other field taken from the plan. -/
theorem update_rename_body (lib : Lib) (a b : String) (hne : a ≠ b) (log : List Call) :
    (∀ (r : commandResource) (req : UpdateRequest commandModel),
        req.Plan.diags.HasError = false → req.State.diags.HasError = false →
        req.State.value.Name.ValueString = a → req.Plan.value.Name.ValueString = b →
        (commandResource.Update lib r req log).2 = log ++ [Call.post "modifyCommand"
          [("commandName", Val.str a), ("newCommandName", Val.str b),
           ("commandLine", Val.str req.Plan.value.CommandLine.ValueString),
           ("commandDescription", Val.str req.Plan.value.Description.ValueString)]]) ∧
      (∀ (r : contactResource) (req : UpdateRequest contactModel),
        req.Plan.diags.HasError = false → req.State.diags.HasError = false →
        req.State.value.Name.ValueString = a → req.Plan.value.Name.ValueString = b →
        (contactResource.Update lib r req log).2 = log ++ [Call.post "modifyContact"
          ([("contactName", Val.str a),
            ("contactAlias", Val.str req.Plan.value.Alias.ValueString),
            ("contactMail", Val.str req.Plan.value.Mail.ValueString),
            ("contactPager", Val.str req.Plan.value.Pager.ValueString),
            ("exportConfiguration", Val.bool req.Plan.value.Export.ValueBool)] ++
           (if !req.Plan.value.ContactGroup.IsNull && !req.Plan.value.ContactGroup.IsUnknown then
              [("contactGroup", Val.str req.Plan.value.ContactGroup.ValueString)]
            else []) ++
           [("newContactName", Val.str b)])]) ∧
      (∀ (r : contactGroupResource) (req : UpdateRequest contactGroupModel),
        req.Plan.diags.HasError = false → req.State.diags.HasError = false →
        req.State.value.Name.ValueString = a → req.Plan.value.Name.ValueString = b →
        (contactGroupResource.Update lib r req log).2 = log ++ [Call.post "modifyContactGroup"
          [("contactGroupName", Val.str a),
           ("description", Val.str req.Plan.value.Description.ValueString),
           ("exportConfiguration", Val.bool req.Plan.value.Export.ValueBool),
           ("newContactGroupName", Val.str b)]]) := by
  have hne' : ¬ b = a := fun h => hne h.symm
  have hd : ∀ (p s : Diagnostics), p.HasError = false → s.HasError = false →
      ((Diagnostics.Append [] p).Append s).HasError = false := by
    intro p s hp hs
    rw [Diagnostics.HasError_Append, Diagnostics.HasError_Append_nil, hp, hs]
    rfl
  refine ⟨?_, ?_, ?_⟩
  · intro r req hp hs hsn hpn
    simp only [commandResource.Update, hd _ _ hp hs, hsn, hpn]
    cases hc : (r.client.ModifyCommand lib a (if b ≠ a then b else "")
        req.Plan.value.CommandLine.ValueString req.Plan.value.Description.ValueString log).1.2 <;>
      simp [Client.ModifyCommand, Client.Post_log, hne']
  · intro r req hp hs hsn hpn
    simp only [contactResource.Update, hd _ _ hp hs]
    have hb : contactResource.updateBody req.Plan.value req.State.value =
        [("contactName", Val.str a),
          ("contactAlias", Val.str req.Plan.value.Alias.ValueString),
          ("contactMail", Val.str req.Plan.value.Mail.ValueString),
          ("contactPager", Val.str req.Plan.value.Pager.ValueString),
          ("exportConfiguration", Val.bool req.Plan.value.Export.ValueBool)] ++
         (if !req.Plan.value.ContactGroup.IsNull && !req.Plan.value.ContactGroup.IsUnknown then
            [("contactGroup", Val.str req.Plan.value.ContactGroup.ValueString)]
          else []) ++
         [("newContactName", Val.str b)] := by
      simp only [contactResource.updateBody, contactResource.contactBody, hsn, hpn]
      cases req.Plan.value.ContactGroup <;> simp [Body.set, TfString.IsNull, TfString.IsUnknown, hne']
    rw [hb]
    cases hc : (r.client.ModifyContact lib _ log).1.2 <;>
      simp [Client.ModifyContact, Client.Post_log]
  · intro r req hp hs hsn hpn
    simp only [contactGroupResource.Update, hd _ _ hp hs]
    have hb : contactGroupResource.updateBody req.Plan.value req.State.value =
        [("contactGroupName", Val.str a),
         ("description", Val.str req.Plan.value.Description.ValueString),
         ("exportConfiguration", Val.bool req.Plan.value.Export.ValueBool),
         ("newContactGroupName", Val.str b)] := by
      simp [contactGroupResource.updateBody, hsn, hpn, Body.set, hne']
    rw [hb]
    cases hc : (r.client.ModifyContactGroup lib _ log).1.2 <;>
      simp [Client.ModifyContactGroup, Client.Post_log]

/-- C8 (witness): renaming the command, the contact and the contact group "a" to "b". -/
theorem update_rename_body_witness :
    (commandResource.Update sampleLib ⟨sampleClient (constHTTP okResponse)⟩
        ⟨⟨{ sampleCommand with Name := .known "b" }, []⟩, ⟨sampleCommand, []⟩⟩ []).2 =
        [Call.post "modifyCommand"
          [("commandName", Val.str "a"), ("newCommandName", Val.str "b"),
           ("commandLine", Val.str "$USER1$/check_http"), ("commandDescription", Val.str "")]] ∧
      (contactResource.Update sampleLib ⟨sampleClient (constHTTP okResponse)⟩
        ⟨⟨{ sampleContact with Name := .known "b" }, []⟩, ⟨sampleContact, []⟩⟩ []).2 =
        [Call.post "modifyContact"
          [("contactName", Val.str "a"), ("contactAlias", Val.str ""),
           ("contactMail", Val.str "a@example.org"), ("contactPager", Val.str ""),
           ("exportConfiguration", Val.bool false), ("newContactName", Val.str "b")]] ∧
      (contactGroupResource.Update sampleLib ⟨sampleClient (constHTTP okResponse)⟩
        ⟨⟨{ sampleContactGroup with Name := .known "b" }, []⟩, ⟨sampleContactGroup, []⟩⟩ []).2 =
        [Call.post "modifyContactGroup"
          [("contactGroupName", Val.str "a"), ("description", Val.str "contact group"),
           ("exportConfiguration", Val.bool false), ("newContactGroupName", Val.str "b")]] :=
  ⟨(update_rename_body sampleLib "a" "b" (by decide) []).1
      ⟨sampleClient (constHTTP okResponse)⟩
      ⟨⟨{ sampleCommand with Name := .known "b" }, []⟩, ⟨sampleCommand, []⟩⟩ rfl rfl rfl rfl,
   (update_rename_body sampleLib "a" "b" (by decide) []).2.1
      ⟨sampleClient (constHTTP okResponse)⟩
      ⟨⟨{ sampleContact with Name := .known "b" }, []⟩, ⟨sampleContact, []⟩⟩ rfl rfl rfl rfl,
   (update_rename_body sampleLib "a" "b" (by decide) []).2.2
      ⟨sampleClient (constHTTP okResponse)⟩
      ⟨⟨{ sampleContactGroup with Name := .known "b" }, []⟩, ⟨sampleContactGroup, []⟩⟩
      rfl rfl rfl rfl⟩

theorem exportCreate_set (lib : Lib) (r : exportConfigResource)
    (req : CreateRequest exportConfigModel) (now : Time) (log : List Call)
    (m : exportConfigModel)
    (h : (exportConfigResource.Create lib r req now log).1.State = StateOut.set m) :
    m.ID = TfString.known (exportConfigResource.stampID now) := by
  unfold exportConfigResource.Create at h
  by_cases hd : (Diagnostics.Append [] req.Plan.diags).HasError = true
  · simp [hd] at h
  · simp only [hd] at h
    cases hc : (r.client.ExportConfiguration lib req.Plan.value.JobName.ValueString log).1.2 with
    | some err => simp [hc] at h
    | none =>
      simp only [hc, Bool.false_eq_true, if_false, StateOut.set.injEq] at h
      rw [← h]

/-- C9 (counterexample): two consecutive successful Creates with the same
job_name, the second reading its clock half a second after the first did (so invoked
later than the first), write the same identifier. -/
theorem exportCreate_same_second_same_id :
    (⟨1700000000000000000⟩ : Time).nanos < (⟨1700000000500000000⟩ : Time).nanos ∧
      (exportConfigResource.Create sampleLib ⟨sampleClient (constHTTP okResponse)⟩
        ⟨⟨sampleExport, []⟩⟩ ⟨1700000000000000000⟩ []).1.State =
        StateOut.set ⟨.known "export-1700000000", .known "terraform"⟩ ∧
      (exportConfigResource.Create sampleLib ⟨sampleClient (constHTTP okResponse)⟩
        ⟨⟨sampleExport, []⟩⟩ ⟨1700000000500000000⟩
        (exportConfigResource.Create sampleLib ⟨sampleClient (constHTTP okResponse)⟩
          ⟨⟨sampleExport, []⟩⟩ ⟨1700000000000000000⟩ []).2).1.State =
        StateOut.set ⟨.known "export-1700000000", .known "terraform"⟩ := by
  refine ⟨by decide, by decide, by decide⟩

/-- C9 (amended): for every job_name and every two successful Export Trigger
Create invocations, the identifier written to state is "export-" followed by the
whole Unix seconds of the clock reading Create takes after its export call has
returned (not of the instant Create was invoked).  The two identifiers are distinct
exactly when the two readings fall in different seconds, which is the case whenever
the second reading is at least one second later than the first, and the seconds
count they carry never decreases with the reading.  In terms of invocations, with a
clock that does not run backwards during the second Create: if the second Create is
invoked no earlier than the first one read its clock, the seconds count does not
decrease, and if it is invoked at least one second after the first one read its
clock, the identifiers are distinct. -/
theorem exportCreate_ids (lib : Lib) (r1 r2 : exportConfigResource)
    (req1 req2 : CreateRequest exportConfigModel) (t1 t2 : Time) (log1 log2 : List Call)
    (m1 m2 : exportConfigModel)
    (h1 : (exportConfigResource.Create lib r1 req1 t1 log1).1.State = StateOut.set m1)
    (h2 : (exportConfigResource.Create lib r2 req2 t2 log2).1.State = StateOut.set m2) :
    m1.ID = TfString.known ("export-" ++ fmtInt t1.Unix) ∧
      m2.ID = TfString.known ("export-" ++ fmtInt t2.Unix) ∧
      (m1.ID ≠ m2.ID ↔ t1.Unix ≠ t2.Unix) ∧
      (t1.nanos ≤ t2.nanos → t1.Unix ≤ t2.Unix) ∧
      (t1.nanos + 1000000000 ≤ t2.nanos → t1.Unix < t2.Unix ∧ m1.ID ≠ m2.ID) ∧
      (∀ invoked2 : Time, invoked2.nanos ≤ t2.nanos →
        (t1.nanos ≤ invoked2.nanos → t1.Unix ≤ t2.Unix) ∧
        (t1.nanos + 1000000000 ≤ invoked2.nanos → t1.Unix < t2.Unix ∧ m1.ID ≠ m2.ID)) := by
  have e1 := exportCreate_set lib r1 req1 t1 log1 m1 h1
  have e2 := exportCreate_set lib r2 req2 t2 log2 m2 h2
  have hiff : m1.ID ≠ m2.ID ↔ t1.Unix ≠ t2.Unix := by
    rw [e1, e2]
    simp only [ne_eq, TfString.known.injEq]
    exact not_congr (stampID_eq_iff t1 t2)
  have hmono : t1.nanos ≤ t2.nanos → t1.Unix ≤ t2.Unix := by
    intro h
    unfold Time.Unix
    omega
  have hapart : t1.nanos + 1000000000 ≤ t2.nanos → t1.Unix < t2.Unix ∧ m1.ID ≠ m2.ID := by
    intro h
    have hlt : t1.Unix < t2.Unix := by
      unfold Time.Unix
      omega
    exact ⟨hlt, hiff.mpr (by omega)⟩
  refine ⟨e1, e2, hiff, hmono, hapart, ?_⟩
  intro invoked2 hinv
  exact ⟨fun h => hmono (by omega), fun h => hapart (by omega)⟩

/-- C9 (witness): two successful Creates whose clock readings are two seconds
apart write "export-1700000000" and "export-1700000002". -/
theorem exportCreate_ids_witness :
    (⟨.known "export-1700000000", .known "terraform"⟩ : exportConfigModel).ID =
        TfString.known ("export-" ++ fmtInt (⟨1700000000000000000⟩ : Time).Unix) ∧
      (⟨.known "export-1700000000", .known "terraform"⟩ : exportConfigModel).ID ≠
        (⟨.known "export-1700000002", .known "terraform"⟩ : exportConfigModel).ID :=
  have h := exportCreate_ids sampleLib ⟨sampleClient (constHTTP okResponse)⟩
    ⟨sampleClient (constHTTP okResponse)⟩ ⟨⟨sampleExport, []⟩⟩ ⟨⟨sampleExport, []⟩⟩
    ⟨1700000000000000000⟩ ⟨1700000002000000000⟩ [] []
    ⟨.known "export-1700000000", .known "terraform"⟩
    ⟨.known "export-1700000002", .known "terraform"⟩ (by decide) (by decide)
  ⟨h.1, (h.2.2.2.2.1 (by decide)).2⟩

/-- Invocation times more than a second apart do not make the identifiers distinct:
a first Create invoked when the clock reads 0.0 s whose export call takes 1.5 s, and a
second Create invoked at 1.6 s whose export call takes 0.1 s, read the clock at 1.5 s
and at 1.7 s and both write "export-1". -/
theorem exportCreate_slow_call_same_id :
    (0 : Int) + 1000000000 ≤ 1600000000 ∧
      (exportConfigResource.Create sampleLib ⟨sampleClient (constHTTP okResponse)⟩
        ⟨⟨sampleExport, []⟩⟩ ⟨0 + 1500000000⟩ []).1.State =
        StateOut.set ⟨.known "export-1", .known "terraform"⟩ ∧
      (exportConfigResource.Create sampleLib ⟨sampleClient (constHTTP okResponse)⟩
        ⟨⟨sampleExport, []⟩⟩ ⟨1600000000 + 100000000⟩
        (exportConfigResource.Create sampleLib ⟨sampleClient (constHTTP okResponse)⟩
          ⟨⟨sampleExport, []⟩⟩ ⟨0 + 1500000000⟩ []).2).1.State =
        StateOut.set ⟨.known "export-1", .known "terraform"⟩ := by
  refine ⟨by decide, by decide, by decide⟩

/-- C10: for Host, Command, Contact and Contact Group and for every prior
tracked state (read without error), a Read whose existence check (GetHost, GetCommand,
GetContact, GetContactGroup keyed by the tracked name) returns any error removes the
record from tracked state and reports no error diagnostic. -/
theorem read_failed_check_drops_record (lib : Lib) (log : List Call) :
    (∀ (r : hostResource) (req : ReadRequest hostModel) (err : String),
        req.State.diags.HasError = false →
        (r.client.GetHost lib req.State.value.Name.ValueString log).1.2 = some err →
        (hostResource.Read lib r req log).1.State = StateOut.removed ∧
          (hostResource.Read lib r req log).1.Diagnostics.HasError = false) ∧
      (∀ (r : commandResource) (req : ReadRequest commandModel) (err : String),
        req.State.diags.HasError = false →
        (r.client.GetCommand lib req.State.value.Name.ValueString log).1.2 = some err →
        (commandResource.Read lib r req log).1.State = StateOut.removed ∧
          (commandResource.Read lib r req log).1.Diagnostics.HasError = false) ∧
      (∀ (r : contactResource) (req : ReadRequest contactModel) (err : String),
        req.State.diags.HasError = false →
        (r.client.GetContact lib req.State.value.Name.ValueString log).1.2 = some err →
        (contactResource.Read lib r req log).1.State = StateOut.removed ∧
          (contactResource.Read lib r req log).1.Diagnostics.HasError = false) ∧
      (∀ (r : contactGroupResource) (req : ReadRequest contactGroupModel) (err : String),
        req.State.diags.HasError = false →
        (r.client.GetContactGroup lib req.State.value.Name.ValueString log).1.2 = some err →
        (contactGroupResource.Read lib r req log).1.State = StateOut.removed ∧
          (contactGroupResource.Read lib r req log).1.Diagnostics.HasError = false) := by
  refine ⟨?_, ?_, ?_, ?_⟩
  · intro r req err hs herr
    have hd := (Diagnostics.HasError_Append_nil req.State.diags).trans hs
    simp only [hostResource.Read, hd, herr]
    exact ⟨rfl, hd⟩
  · intro r req err hs herr
    have hd := (Diagnostics.HasError_Append_nil req.State.diags).trans hs
    simp only [commandResource.Read, hd, herr]
    exact ⟨rfl, hd⟩
  · intro r req err hs herr
    have hd := (Diagnostics.HasError_Append_nil req.State.diags).trans hs
    simp only [contactResource.Read, hd, herr]
    exact ⟨rfl, hd⟩
  · intro r req err hs herr
    have hd := (Diagnostics.HasError_Append_nil req.State.diags).trans hs
    simp only [contactGroupResource.Read, hd, herr]
    exact ⟨rfl, hd⟩

/-- C10 (witness): on a network that answers 404 to every existence check, the
Read of each kind removes the tracked record and reports no diagnostic. -/
theorem read_failed_check_drops_record_witness :
    ((hostResource.Read sampleLib ⟨sampleClient (constHTTP ⟨404, .ok notFoundBody⟩)⟩
        ⟨⟨sampleHost, []⟩⟩ []).1.State = StateOut.removed ∧
      (hostResource.Read sampleLib ⟨sampleClient (constHTTP ⟨404, .ok notFoundBody⟩)⟩
        ⟨⟨sampleHost, []⟩⟩ []).1.Diagnostics.HasError = false) ∧
    ((commandResource.Read sampleLib ⟨sampleClient (constHTTP ⟨404, .ok notFoundBody⟩)⟩
        ⟨⟨sampleCommand, []⟩⟩ []).1.State = StateOut.removed ∧
      (commandResource.Read sampleLib ⟨sampleClient (constHTTP ⟨404, .ok notFoundBody⟩)⟩
        ⟨⟨sampleCommand, []⟩⟩ []).1.Diagnostics.HasError = false) ∧
    ((contactResource.Read sampleLib ⟨sampleClient (failHTTP "connection refused")⟩
        ⟨⟨sampleContact, []⟩⟩ []).1.State = StateOut.removed ∧
      (contactResource.Read sampleLib ⟨sampleClient (failHTTP "connection refused")⟩
        ⟨⟨sampleContact, []⟩⟩ []).1.Diagnostics.HasError = false) ∧
    ((contactGroupResource.Read sampleLib ⟨sampleClient (constHTTP ⟨401, .ok htmlBody⟩)⟩
        ⟨⟨sampleContactGroup, []⟩⟩ []).1.State = StateOut.removed ∧
      (contactGroupResource.Read sampleLib ⟨sampleClient (constHTTP ⟨401, .ok htmlBody⟩)⟩
        ⟨⟨sampleContactGroup, []⟩⟩ []).1.Diagnostics.HasError = false) :=
  ⟨(read_failed_check_drops_record sampleLib []).1
      ⟨sampleClient (constHTTP ⟨404, .ok notFoundBody⟩)⟩ ⟨⟨sampleHost, []⟩⟩
      "API 404: 404 Not Found" rfl rfl,
   (read_failed_check_drops_record sampleLib []).2.1
      ⟨sampleClient (constHTTP ⟨404, .ok notFoundBody⟩)⟩ ⟨⟨sampleCommand, []⟩⟩
      "API 404: 404 Not Found" rfl rfl,
   (read_failed_check_drops_record sampleLib []).2.2.1
      ⟨sampleClient (failHTTP "connection refused")⟩ ⟨⟨sampleContact, []⟩⟩
      "POST getContact: connection refused" rfl rfl,
   (read_failed_check_drops_record sampleLib []).2.2.2
      ⟨sampleClient (constHTTP ⟨401, .ok htmlBody⟩)⟩ ⟨⟨sampleContactGroup, []⟩⟩
      "401 Unauthorized – check username/apiKey" rfl rfl⟩

/-! ## Create, Read and Delete -/

theorem Diagnostics.AddError_of_no_error (ds : Diagnostics) (summary detail : String)
    (h : ds.HasError = false) :
    ds.AddError summary detail = ds ++ [⟨Severity.error, summary, detail⟩] := by
  have hnot : (⟨Severity.error, summary, detail⟩ : Diagnostic) ∉ ds := by
    intro hmem
    have : ds.HasError = true := by
      simp only [Diagnostics.HasError, List.any_eq_true, decide_eq_true_eq]
      exact ⟨_, hmem, rfl⟩
    rw [h] at this
    exact Bool.false_ne_true this
  simp [Diagnostics.AddError, Diagnostics.Append, hnot]

theorem Diagnostics.no_error_Append_nil {ds : Diagnostics} (h : ds.HasError = false) :
    (Diagnostics.Append [] ds).HasError = false :=
  (Diagnostics.HasError_Append_nil ds).trans h

/-- C11: round-trip stability.  For each of Host, Command, Contact and Contact
Group and every plan (read without error), when the client's create call and the
following existence check both succeed, Create persists the plan with its id set to
the plan's name, and the Read that follows (on the call log Create left, with that
record as tracked state) keeps exactly that record; for the Export Trigger, Create
persists the plan with its stamped id and the following Read keeps exactly that
record. -/
theorem create_then_read_roundtrip (lib : Lib) (log : List Call) (sd : Diagnostics)
    (hsd : sd.HasError = false) :
    (∀ (r : hostResource) (req : CreateRequest hostModel),
        req.Plan.diags.HasError = false →
        (r.client.CreateHost lib (hostResource.hostBody req.Plan.value) log).1.2 = none →
        (r.client.GetHost lib req.Plan.value.Name.ValueString
          (hostResource.Create lib r req log).2).1.2 = none →
        (hostResource.Create lib r req log).1.State =
            StateOut.set { req.Plan.value with ID := req.Plan.value.Name } ∧
          (hostResource.Read lib r ⟨⟨{ req.Plan.value with ID := req.Plan.value.Name }, sd⟩⟩
            (hostResource.Create lib r req log).2).1.State =
            StateOut.set { req.Plan.value with ID := req.Plan.value.Name }) ∧
      (∀ (r : commandResource) (req : CreateRequest commandModel),
        req.Plan.diags.HasError = false →
        (r.client.AddCommand lib req.Plan.value.Name.ValueString
          req.Plan.value.CommandLine.ValueString req.Plan.value.Description.ValueString
          log).1.2 = none →
        (r.client.GetCommand lib req.Plan.value.Name.ValueString
          (commandResource.Create lib r req log).2).1.2 = none →
        (commandResource.Create lib r req log).1.State =
            StateOut.set { req.Plan.value with ID := req.Plan.value.Name } ∧
          (commandResource.Read lib r ⟨⟨{ req.Plan.value with ID := req.Plan.value.Name }, sd⟩⟩
            (commandResource.Create lib r req log).2).1.State =
            StateOut.set { req.Plan.value with ID := req.Plan.value.Name }) ∧
      (∀ (r : contactResource) (req : CreateRequest contactModel),
        req.Plan.diags.HasError = false →
        (r.client.CreateContact lib (contactResource.contactBody req.Plan.value) log).1.2 = none →
        (r.client.GetContact lib req.Plan.value.Name.ValueString
          (contactResource.Create lib r req log).2).1.2 = none →
        (contactResource.Create lib r req log).1.State =
            StateOut.set { req.Plan.value with ID := req.Plan.value.Name } ∧
          (contactResource.Read lib r ⟨⟨{ req.Plan.value with ID := req.Plan.value.Name }, sd⟩⟩
            (contactResource.Create lib r req log).2).1.State =
            StateOut.set { req.Plan.value with ID := req.Plan.value.Name }) ∧
      (∀ (r : contactGroupResource) (req : CreateRequest contactGroupModel),
        req.Plan.diags.HasError = false →
        (r.client.CreateContactGroup lib req.Plan.value.Name.ValueString
          req.Plan.value.Description.ValueString req.Plan.value.Export.ValueBool log).1.2 = none →
        (r.client.GetContactGroup lib req.Plan.value.Name.ValueString
          (contactGroupResource.Create lib r req log).2).1.2 = none →
        (contactGroupResource.Create lib r req log).1.State =
            StateOut.set { req.Plan.value with ID := req.Plan.value.Name } ∧
          (contactGroupResource.Read lib r
            ⟨⟨{ req.Plan.value with ID := req.Plan.value.Name }, sd⟩⟩
            (contactGroupResource.Create lib r req log).2).1.State =
            StateOut.set { req.Plan.value with ID := req.Plan.value.Name }) ∧
      (∀ (r : exportConfigResource) (req : CreateRequest exportConfigModel) (now : Time),
        req.Plan.diags.HasError = false →
        (r.client.ExportConfiguration lib req.Plan.value.JobName.ValueString log).1.2 = none →
        (exportConfigResource.Create lib r req now log).1.State =
            StateOut.set
              { req.Plan.value with ID := TfString.known (exportConfigResource.stampID now) } ∧
          (exportConfigResource.Read
            ⟨⟨{ req.Plan.value with ID := TfString.known (exportConfigResource.stampID now) },
              sd⟩⟩
            (exportConfigResource.Create lib r req now log).2).1.State =
            StateOut.set
              { req.Plan.value with ID := TfString.known (exportConfigResource.stampID now) }) := by
  have hs := Diagnostics.no_error_Append_nil hsd
  refine ⟨?_, ?_, ?_, ?_, ?_⟩
  · intro r req hp hc hg
    have hd := Diagnostics.no_error_Append_nil hp
    have hcreate : hostResource.Create lib r req log =
        (⟨(Diagnostics.Append [] req.Plan.diags).Append stateSetDiags,
          StateOut.set { req.Plan.value with ID := req.Plan.value.Name }⟩,
         (r.client.CreateHost lib (hostResource.hostBody req.Plan.value) log).2) := by
      simp only [hostResource.Create, hd, hc]
      rfl
    rw [hcreate] at hg ⊢
    refine ⟨rfl, ?_⟩
    simp only [hostResource.Read, hs, hg]
    rfl
  · intro r req hp hc hg
    have hd := Diagnostics.no_error_Append_nil hp
    have hcreate : commandResource.Create lib r req log =
        (⟨(Diagnostics.Append [] req.Plan.diags).Append stateSetDiags,
          StateOut.set { req.Plan.value with ID := req.Plan.value.Name }⟩,
         (r.client.AddCommand lib req.Plan.value.Name.ValueString
          req.Plan.value.CommandLine.ValueString req.Plan.value.Description.ValueString
          log).2) := by
      simp only [commandResource.Create, hd, hc]
      rfl
    rw [hcreate] at hg ⊢
    refine ⟨rfl, ?_⟩
    simp only [commandResource.Read, hs, hg]
    rfl
  · intro r req hp hc hg
    have hd := Diagnostics.no_error_Append_nil hp
    have hcreate : contactResource.Create lib r req log =
        (⟨(Diagnostics.Append [] req.Plan.diags).Append stateSetDiags,
          StateOut.set { req.Plan.value with ID := req.Plan.value.Name }⟩,
         (r.client.CreateContact lib (contactResource.contactBody req.Plan.value) log).2) := by
      simp only [contactResource.Create, hd, hc]
      rfl
    rw [hcreate] at hg ⊢
    refine ⟨rfl, ?_⟩
    simp only [contactResource.Read, hs, hg]
    rfl
  · intro r req hp hc hg
    have hd := Diagnostics.no_error_Append_nil hp
    have hcreate : contactGroupResource.Create lib r req log =
        (⟨(Diagnostics.Append [] req.Plan.diags).Append stateSetDiags,
          StateOut.set { req.Plan.value with ID := req.Plan.value.Name }⟩,
         (r.client.CreateContactGroup lib req.Plan.value.Name.ValueString
          req.Plan.value.Description.ValueString req.Plan.value.Export.ValueBool log).2) := by
      simp only [contactGroupResource.Create, hd, hc]
      rfl
    rw [hcreate] at hg ⊢
    refine ⟨rfl, ?_⟩
    simp only [contactGroupResource.Read, hs, hg]
    rfl
  · intro r req now hp hc
    have hd := Diagnostics.no_error_Append_nil hp
    refine ⟨?_, rfl⟩
    simp only [exportConfigResource.Create, hd, hc]
    rfl

/-- C11 (witness): on a network that answers 200, Create followed by Read keeps
the host "h1" with id "h1", and keeps the export trigger with its stamped id. -/
theorem create_then_read_roundtrip_witness :
    (hostResource.Read sampleLib ⟨sampleClient (constHTTP okResponse)⟩
        ⟨⟨{ sampleHostPlan with ID := sampleHostPlan.Name }, []⟩⟩
        (hostResource.Create sampleLib ⟨sampleClient (constHTTP okResponse)⟩
          ⟨⟨sampleHostPlan, []⟩⟩ []).2).1.State =
        StateOut.set { sampleHostPlan with ID := .known "h1" } ∧
      (exportConfigResource.Read
        ⟨⟨{ sampleExport with
            ID := TfString.known (exportConfigResource.stampID ⟨1700000000000000000⟩) }, []⟩⟩
        (exportConfigResource.Create sampleLib ⟨sampleClient (constHTTP okResponse)⟩
          ⟨⟨sampleExport, []⟩⟩ ⟨1700000000000000000⟩ []).2).1.State =
        StateOut.set { sampleExport with ID := .known "export-1700000000" } :=
  ⟨((create_then_read_roundtrip sampleLib [] [] rfl).1
      ⟨sampleClient (constHTTP okResponse)⟩ ⟨⟨sampleHostPlan, []⟩⟩ rfl rfl rfl).2,
   ((create_then_read_roundtrip sampleLib [] [] rfl).2.2.2.2
      ⟨sampleClient (constHTTP okResponse)⟩ ⟨⟨sampleExport, []⟩⟩ ⟨1700000000000000000⟩
      rfl rfl).2⟩

theorem match_result_log {M : Type} (x : Result × List Call) (f : String → OpResponse M)
    (g : OpResponse M) :
    (match x.1.2 with
      | some err => (f err, x.2)
      | none => (g, x.2)).2 = x.2 := by
  cases x.1.2 <;> rfl

/-- C12: for Host, Command, Contact and Contact Group and for every tracked
state (read without error), Delete makes exactly one client call: the POST to the
kind's delete endpoint whose name parameter is the tracked name; for Host the call's
exportConfiguration parameter is the tracked export flag. -/
theorem delete_issues_one_call (lib : Lib) (log : List Call) :
    (∀ (r : hostResource) (req : DeleteRequest hostModel),
        req.State.diags.HasError = false →
        (hostResource.Delete lib r req log).2 = log ++ [Call.post "deleteHost"
          [("hostName", Val.str req.State.value.Name.ValueString),
           ("exportConfiguration", Val.bool req.State.value.Export.ValueBool)]]) ∧
      (∀ (r : commandResource) (req : DeleteRequest commandModel),
        req.State.diags.HasError = false →
        (commandResource.Delete lib r req log).2 = log ++ [Call.post "deleteCommand"
          [("commandName", Val.str req.State.value.Name.ValueString)]]) ∧
      (∀ (r : contactResource) (req : DeleteRequest contactModel),
        req.State.diags.HasError = false →
        (contactResource.Delete lib r req log).2 = log ++ [Call.post "deleteContact"
          [("contactName", Val.str req.State.value.Name.ValueString)]]) ∧
      (∀ (r : contactGroupResource) (req : DeleteRequest contactGroupModel),
        req.State.diags.HasError = false →
        (contactGroupResource.Delete lib r req log).2 = log ++ [Call.post "deleteContactGroup"
          [("contactGroupName", Val.str req.State.value.Name.ValueString)]]) := by
  refine ⟨?_, ?_, ?_, ?_⟩
  · intro r req hs
    have hd := Diagnostics.no_error_Append_nil hs
    simp only [hostResource.Delete, hd]
    simp only [Bool.false_eq_true, if_false, match_result_log]
    simp [Client.DeleteHost, Client.Post_log]
  · intro r req hs
    have hd := Diagnostics.no_error_Append_nil hs
    simp only [commandResource.Delete, hd]
    simp only [Bool.false_eq_true, if_false, match_result_log]
    simp [Client.DeleteCommand, Client.Post_log]
  · intro r req hs
    have hd := Diagnostics.no_error_Append_nil hs
    simp only [contactResource.Delete, hd]
    simp only [Bool.false_eq_true, if_false, match_result_log]
    simp [Client.DeleteContact, Client.Post_log]
  · intro r req hs
    have hd := Diagnostics.no_error_Append_nil hs
    simp only [contactGroupResource.Delete, hd]
    simp only [Bool.false_eq_true, if_false, match_result_log]
    simp [Client.DeleteContactGroup, Client.Post_log]

/-- C12 (witness): deleting the tracked host "h1", whose export flag is set. -/
theorem delete_issues_one_call_witness :
    (hostResource.Delete sampleLib ⟨sampleClient (constHTTP okResponse)⟩
        ⟨⟨{ sampleHost with Export := .known true }, []⟩⟩ []).2 =
      [Call.post "deleteHost"
        [("hostName", Val.str "h1"), ("exportConfiguration", Val.bool true)]] :=
  (delete_issues_one_call sampleLib []).1 ⟨sampleClient (constHTTP okResponse)⟩
    ⟨⟨{ sampleHost with Export := .known true }, []⟩⟩ rfl

/-- C13 (counterexample): the delete call for the tracked host "h1" fails with
the message "POST deleteHost: connection refused"; the detail of the diagnostic that
Delete adds is another text, which wraps that message. -/
theorem hostDelete_detail_not_verbatim :
    ((sampleClient (failHTTP "connection refused")).DeleteHost sampleLib "h1" false []).1.2 =
        some "POST deleteHost: connection refused" ∧
      (hostResource.Delete sampleLib ⟨sampleClient (failHTTP "connection refused")⟩
        ⟨⟨sampleHost, []⟩⟩ []).1.Diagnostics =
        [⟨Severity.error, "Error deleting host",
          "Could not delete host \"h1\": POST deleteHost: connection refused"⟩] ∧
      "Could not delete host \"h1\": POST deleteHost: connection refused" ≠
        "POST deleteHost: connection refused" := by
  refine ⟨rfl, by decide, by decide⟩

/-- C13 (amended): when the client call of a Create fails with error `e`, the
adapter adds one error diagnostic whose detail is exactly `e`'s message, for Host,
Command, Contact, Contact Group and the Export Trigger.  When the client call of a
Delete fails with error `e`, the detail of the error diagnostic the adapter adds
is `e`'s message behind a prefix that names the record: "Could not delete host
<quoted name>: ", "Could not delete command <quoted name>: ", "Could not delete
contact <quoted name>: " and, for the Contact Group, "Could not delete <quoted
name>: ". -/
theorem create_delete_error_detail (lib : Lib) (log : List Call) (e : String) :
    (∀ (r : hostResource) (req : CreateRequest hostModel),
        req.Plan.diags.HasError = false →
        (r.client.CreateHost lib (hostResource.hostBody req.Plan.value) log).1.2 = some e →
        (hostResource.Create lib r req log).1.Diagnostics =
          Diagnostics.Append [] req.Plan.diags ++ [⟨Severity.error, "Error creating host", e⟩]) ∧
      (∀ (r : commandResource) (req : CreateRequest commandModel),
        req.Plan.diags.HasError = false →
        (r.client.AddCommand lib req.Plan.value.Name.ValueString
          req.Plan.value.CommandLine.ValueString req.Plan.value.Description.ValueString log).1.2 = some e →
        (commandResource.Create lib r req log).1.Diagnostics =
          Diagnostics.Append [] req.Plan.diags ++ [⟨Severity.error, "Error creating command", e⟩]) ∧
      (∀ (r : contactResource) (req : CreateRequest contactModel),
        req.Plan.diags.HasError = false →
        (r.client.CreateContact lib (contactResource.contactBody req.Plan.value) log).1.2 = some e →
        (contactResource.Create lib r req log).1.Diagnostics =
          Diagnostics.Append [] req.Plan.diags ++ [⟨Severity.error, "Error creating contact", e⟩]) ∧
      (∀ (r : contactGroupResource) (req : CreateRequest contactGroupModel),
        req.Plan.diags.HasError = false →
        (r.client.CreateContactGroup lib req.Plan.value.Name.ValueString
          req.Plan.value.Description.ValueString req.Plan.value.Export.ValueBool log).1.2 = some e →
        (contactGroupResource.Create lib r req log).1.Diagnostics =
          Diagnostics.Append [] req.Plan.diags ++ [⟨Severity.error, "Error creating contact group", e⟩]) ∧
      (∀ (r : exportConfigResource) (req : CreateRequest exportConfigModel) (now : Time),
        req.Plan.diags.HasError = false →
        (r.client.ExportConfiguration lib req.Plan.value.JobName.ValueString log).1.2 = some e →
        (exportConfigResource.Create lib r req now log).1.Diagnostics =
          Diagnostics.Append [] req.Plan.diags ++
            [⟨Severity.error, "Error exporting configuration", e⟩]) ∧
      (∀ (r : hostResource) (req : DeleteRequest hostModel),
        req.State.diags.HasError = false →
        (r.client.DeleteHost lib req.State.value.Name.ValueString
          req.State.value.Export.ValueBool log).1.2 = some e →
        (hostResource.Delete lib r req log).1.Diagnostics =
          Diagnostics.Append [] req.State.diags ++ [⟨Severity.error, "Error deleting host",
            "Could not delete host " ++ lib.fmtQuote req.State.value.Name.ValueString ++ ": " ++ e⟩]) ∧
      (∀ (r : commandResource) (req : DeleteRequest commandModel),
        req.State.diags.HasError = false →
        (r.client.DeleteCommand lib req.State.value.Name.ValueString log).1.2 = some e →
        (commandResource.Delete lib r req log).1.Diagnostics =
          Diagnostics.Append [] req.State.diags ++ [⟨Severity.error, "Error deleting command",
            "Could not delete command " ++ lib.fmtQuote req.State.value.Name.ValueString ++ ": " ++ e⟩]) ∧
      (∀ (r : contactResource) (req : DeleteRequest contactModel),
        req.State.diags.HasError = false →
        (r.client.DeleteContact lib req.State.value.Name.ValueString log).1.2 = some e →
        (contactResource.Delete lib r req log).1.Diagnostics =
          Diagnostics.Append [] req.State.diags ++ [⟨Severity.error, "Error deleting contact",
            "Could not delete contact " ++ lib.fmtQuote req.State.value.Name.ValueString ++ ": " ++ e⟩]) ∧
      (∀ (r : contactGroupResource) (req : DeleteRequest contactGroupModel),
        req.State.diags.HasError = false →
        (r.client.DeleteContactGroup lib req.State.value.Name.ValueString log).1.2 = some e →
        (contactGroupResource.Delete lib r req log).1.Diagnostics =
          Diagnostics.Append [] req.State.diags ++ [⟨Severity.error, "Error deleting contact group",
            "Could not delete " ++ lib.fmtQuote req.State.value.Name.ValueString ++ ": " ++ e⟩]) := by
  refine ⟨?_, ?_, ?_, ?_, ?_, ?_, ?_, ?_, ?_⟩
  · intro r req hp hc
    have hd := Diagnostics.no_error_Append_nil hp
    simp only [hostResource.Create, hd, hc]
    exact Diagnostics.AddError_of_no_error _ _ _ hd
  · intro r req hp hc
    have hd := Diagnostics.no_error_Append_nil hp
    simp only [commandResource.Create, hd, hc]
    exact Diagnostics.AddError_of_no_error _ _ _ hd
  · intro r req hp hc
    have hd := Diagnostics.no_error_Append_nil hp
    simp only [contactResource.Create, hd, hc]
    exact Diagnostics.AddError_of_no_error _ _ _ hd
  · intro r req hp hc
    have hd := Diagnostics.no_error_Append_nil hp
    simp only [contactGroupResource.Create, hd, hc]
    exact Diagnostics.AddError_of_no_error _ _ _ hd
  · intro r req now hp hc
    have hd := Diagnostics.no_error_Append_nil hp
    simp only [exportConfigResource.Create, hd, hc]
    exact Diagnostics.AddError_of_no_error _ _ _ hd
  · intro r req hs hc
    have hd := Diagnostics.no_error_Append_nil hs
    simp only [hostResource.Delete, hd, hc]
    exact Diagnostics.AddError_of_no_error _ _ _ hd
  · intro r req hs hc
    have hd := Diagnostics.no_error_Append_nil hs
    simp only [commandResource.Delete, hd, hc]
    exact Diagnostics.AddError_of_no_error _ _ _ hd
  · intro r req hs hc
    have hd := Diagnostics.no_error_Append_nil hs
    simp only [contactResource.Delete, hd, hc]
    exact Diagnostics.AddError_of_no_error _ _ _ hd
  · intro r req hs hc
    have hd := Diagnostics.no_error_Append_nil hs
    simp only [contactGroupResource.Delete, hd, hc]
    exact Diagnostics.AddError_of_no_error _ _ _ hd

/-- C13 (witness): on a network that refuses the connection, Create of a host
reports the client's message unchanged and Delete of a command reports it behind
its prefix. -/
theorem create_delete_error_detail_witness :
    (hostResource.Create sampleLib ⟨sampleClient (failHTTP "connection refused")⟩
        ⟨⟨sampleHostPlan, []⟩⟩ []).1.Diagnostics =
        [⟨Severity.error, "Error creating host", "POST createHost: connection refused"⟩] ∧
      (commandResource.Delete sampleLib ⟨sampleClient (failHTTP "connection refused")⟩
        ⟨⟨sampleCommand, []⟩⟩ []).1.Diagnostics =
        [⟨Severity.error, "Error deleting command",
          "Could not delete command \"a\": POST deleteCommand: connection refused"⟩] :=
  ⟨(create_delete_error_detail sampleLib [] "POST createHost: connection refused").1
      ⟨sampleClient (failHTTP "connection refused")⟩ ⟨⟨sampleHostPlan, []⟩⟩ rfl rfl,
   (create_delete_error_detail sampleLib [] "POST deleteCommand: connection refused").2.2.2.2.2.2.1
      ⟨sampleClient (failHTTP "connection refused")⟩ ⟨⟨sampleCommand, []⟩⟩ rfl rfl⟩

/-! ## The request URL -/

theorem stringsTrimRight_idem (s : String) :
    stringsTrimRight (stringsTrimRight s "/") "/" = stringsTrimRight s "/" := by
  simp [stringsTrimRight, List.rdropWhile_idempotent]

theorem stringsTrimRight_last (s : String) :
    (stringsTrimRight s "/").data.getLast? ≠ some '/' := by
  intro h
  have hne : s.data.rdropWhile (fun ch => decide (ch ∈ "/".data)) ≠ [] := by
    intro hnil
    have h1 : (s.data.rdropWhile (fun ch => decide (ch ∈ "/".data))).getLast? = some '/' := h
    rw [hnil] at h1
    simp at h1
  have hlast := List.rdropWhile_last_not (fun ch => decide (ch ∈ "/".data)) s.data hne
  have hget : (s.data.rdropWhile (fun ch => decide (ch ∈ "/".data))).getLast hne = '/' := by
    have h2 : (s.data.rdropWhile (fun ch => decide (ch ∈ "/".data))).getLast? = some '/' := h
    rw [List.getLast?_eq_getLast _ hne] at h2
    exact Option.some.inj h2
  rw [hget] at hlast
  exact hlast (by decide)

theorem stringsTrimRight_removes_slashes (s : String) :
    ∃ k : Nat, s = stringsTrimRight s "/" ++ String.mk (List.replicate k '/') := by
  let p : Char → Bool := fun ch => decide (ch ∈ "/".data)
  refine ⟨(s.data.reverse.takeWhile p).length, ?_⟩
  apply String.ext
  have hsplit : s.data = (s.data.reverse.dropWhile p).reverse ++
      (s.data.reverse.takeWhile p).reverse := by
    rw [← List.reverse_append, List.takeWhile_append_dropWhile, List.reverse_reverse]
  have hall : ∀ ch ∈ s.data.reverse.takeWhile p, ch = '/' := by
    intro ch hch
    have := List.mem_takeWhile_imp hch
    simpa [p] using this
  have hrep : s.data.reverse.takeWhile p =
      List.replicate (s.data.reverse.takeWhile p).length '/' :=
    List.eq_replicate_iff.mpr ⟨rfl, hall⟩
  have hdata : (stringsTrimRight s "/" ++
      String.mk (List.replicate (s.data.reverse.takeWhile p).length '/')).data =
      (s.data.reverse.dropWhile p).reverse ++
        List.replicate (s.data.reverse.takeWhile p).length '/' := by
    simp [stringsTrimRight, List.rdropWhile, String.data_append, p]
  rw [hdata, ← List.reverse_replicate, ← hrep]
  exact hsplit

theorem NewClient_url (lib : Lib) (net : Bool → HTTPClient) (base user key e : String)
    (insecure : Bool) :
    (NewClient net base user key insecure).url lib e =
      stringsTrimRight base "/" ++ "/" ++ e ++ "?&username=" ++ lib.queryEscape user ++
        "&apiKey=" ++ lib.queryEscape key := by
  apply String.ext
  simp [Client.url, Client.authQS, NewClient, String.data_append]

/-- C14: for every base URL, endpoint, username and key, a client built by
`NewClient` requests, for `Get` and for `Post` alike, the URL made of the base URL
with its trailing '/' characters removed, "/", the endpoint, "?&username=", the
escaped username, "&apiKey=" and the escaped key: `Get` and `Post` depend on the
network only through its answer for that URL (for `Post`, for the POST request to
that URL with the JSON content type).  The normalisation of the base URL removes
nothing but trailing '/' characters, leaves a text that does not end in '/', and is
idempotent. -/
theorem request_url (lib : Lib) (net : Bool → HTTPClient) (base user key e : String)
    (insecure : Bool) (b : Body) (log : List Call) :
    (NewClient net base user key insecure).url lib e =
        stringsTrimRight base "/" ++ "/" ++ e ++ "?&username=" ++ lib.queryEscape user ++
          "&apiKey=" ++ lib.queryEscape key ∧
      (∀ jb, (NewClient net base user key insecure).postRequest lib e jb =
        ⟨"POST", stringsTrimRight base "/" ++ "/" ++ e ++ "?&username=" ++ lib.queryEscape user ++
          "&apiKey=" ++ lib.queryEscape key, jb, [("Content-Type", "application/json")]⟩) ∧
      (∀ net' : Bool → HTTPClient,
        (net' insecure).Get (log ++ [Call.get e])
            (stringsTrimRight base "/" ++ "/" ++ e ++ "?&username=" ++ lib.queryEscape user ++
              "&apiKey=" ++ lib.queryEscape key) =
          (net insecure).Get (log ++ [Call.get e])
            (stringsTrimRight base "/" ++ "/" ++ e ++ "?&username=" ++ lib.queryEscape user ++
              "&apiKey=" ++ lib.queryEscape key) →
        (NewClient net' base user key insecure).Get lib e log =
          (NewClient net base user key insecure).Get lib e log) ∧
      (∀ net' : Bool → HTTPClient,
        (∀ jb, (net' insecure).Do (log ++ [Call.post e b])
            ⟨"POST", stringsTrimRight base "/" ++ "/" ++ e ++ "?&username=" ++
              lib.queryEscape user ++ "&apiKey=" ++ lib.queryEscape key, jb,
              [("Content-Type", "application/json")]⟩ =
          (net insecure).Do (log ++ [Call.post e b])
            ⟨"POST", stringsTrimRight base "/" ++ "/" ++ e ++ "?&username=" ++
              lib.queryEscape user ++ "&apiKey=" ++ lib.queryEscape key, jb,
              [("Content-Type", "application/json")]⟩) →
        (NewClient net' base user key insecure).Post lib e b log =
          (NewClient net base user key insecure).Post lib e b log) ∧
      (∃ k : Nat, base = stringsTrimRight base "/" ++ String.mk (List.replicate k '/')) ∧
      (stringsTrimRight base "/").data.getLast? ≠ some '/' ∧
      stringsTrimRight (stringsTrimRight base "/") "/" = stringsTrimRight base "/" := by
  have hu := NewClient_url lib
  have hreq : ∀ (n : Bool → HTTPClient) (jb : String),
      (NewClient n base user key insecure).postRequest lib e jb =
        ⟨"POST", stringsTrimRight base "/" ++ "/" ++ e ++ "?&username=" ++ lib.queryEscape user ++
          "&apiKey=" ++ lib.queryEscape key, jb, [("Content-Type", "application/json")]⟩ := by
    intro n jb
    simp only [Client.postRequest, hu]
  refine ⟨hu net base user key e insecure, hreq net, ?_, ?_,
    stringsTrimRight_removes_slashes base, stringsTrimRight_last base,
    stringsTrimRight_idem base⟩
  · intro net' h
    simp only [Client.Get, hu]
    simp only [NewClient, h]
  · intro net' h
    simp only [Client.Post, hu, hreq]
    cases lib.jsonMarshal b with
    | error err => rfl
    | ok jb =>
      simp only []
      cases lib.newRequestErr "POST" (stringsTrimRight base "/" ++ "/" ++ e ++ "?&username=" ++
          lib.queryEscape user ++ "&apiKey=" ++ lib.queryEscape key) with
      | some err => rfl
      | none =>
        simp only [NewClient, h]

/-- C14 (witness): a base URL with two trailing slashes; the network reports the
URL it was asked for. -/
theorem request_url_witness :
    ((NewClient (fun _ => echoHTTP) "https://eon.example/eonapi//" "admin" "k3y" false).Get
        sampleLib "getHost" []).1.2 =
        some "GET getHost: https://eon.example/eonapi/getHost?&username=admin&apiKey=k3y" ∧
      ((NewClient (fun _ => echoHTTP) "https://eon.example/eonapi//" "admin" "k3y" false).Post
        sampleLib "getHost" [("hostName", Val.str "h1")] []).1.2 =
        some "POST getHost: https://eon.example/eonapi/getHost?&username=admin&apiKey=k3y" ∧
      (NewClient (fun _ => echoHTTP) "https://eon.example/eonapi//" "admin" "k3y" false).url
        sampleLib "getHost" = "https://eon.example/eonapi/getHost?&username=admin&apiKey=k3y" :=
  ⟨by decide, by decide,
    (request_url sampleLib (fun _ => echoHTTP) "https://eon.example/eonapi//" "admin" "k3y"
      "getHost" false [] []).1.trans (by decide)⟩

/-! ## Provider configuration -/

/-- C15: with the configuration read without error, provider Configure hands a
client (the same one to the resource adapters and to the data sources, built by
`NewClient` from the resolved values) if and only if the resolved url, username and
api_key are all non-empty and `CheckAuth` on the newly built client succeeds; in
every other case it hands out no client and adds one error diagnostic: "Missing
url", "Missing username", "Missing api_key", checked in that order, or "EONAPI
authentication failed" with the message of the `CheckAuth` error. -/
theorem configure_hands_client_iff (lib : Lib) (getenv : String → String)
    (net : Bool → HTTPClient) (req : ConfigureRequest) (log : List Call)
    (url user key : String) (insecure : Bool)
    (hcfg : req.Config.diags.HasError = false)
    (hurl : envOrVal getenv req.Config.value.URL "EON_URL" = url)
    (huser : envOrVal getenv req.Config.value.Username "EON_USERNAME" = user)
    (hkey : envOrVal getenv req.Config.value.APIKey "EON_API_KEY" = key)
    (hins : (if !req.Config.value.Insecure.IsNull then req.Config.value.Insecure.ValueBool
      else false) = insecure) :
    ((eonProvider.Configure lib getenv net req log).1.ResourceData.isSome = true ↔
        url ≠ "" ∧ user ≠ "" ∧ key ≠ "" ∧
          ((NewClient net url user key insecure).CheckAuth lib log).1 = none) ∧
      ((eonProvider.Configure lib getenv net req log).1.DataSourceData.isSome =
        (eonProvider.Configure lib getenv net req log).1.ResourceData.isSome) ∧
      (url ≠ "" → user ≠ "" → key ≠ "" →
        ((NewClient net url user key insecure).CheckAuth lib log).1 = none →
        (eonProvider.Configure lib getenv net req log).1.ResourceData =
            some (NewClient net url user key insecure) ∧
          (eonProvider.Configure lib getenv net req log).1.DataSourceData =
            some (NewClient net url user key insecure) ∧
          (eonProvider.Configure lib getenv net req log).1.Diagnostics.HasError = false) ∧
      (url = "" →
        (eonProvider.Configure lib getenv net req log).1.Diagnostics =
          Diagnostics.Append [] req.Config.diags ++ [⟨Severity.error, "Missing url",
            "Set 'url' in provider block or EON_URL env var."⟩]) ∧
      (url ≠ "" → user = "" →
        (eonProvider.Configure lib getenv net req log).1.Diagnostics =
          Diagnostics.Append [] req.Config.diags ++ [⟨Severity.error, "Missing username",
            "Set 'username' in provider block or EON_USERNAME env var."⟩]) ∧
      (url ≠ "" → user ≠ "" → key = "" →
        (eonProvider.Configure lib getenv net req log).1.Diagnostics =
          Diagnostics.Append [] req.Config.diags ++ [⟨Severity.error, "Missing api_key",
            "Set 'api_key' in provider block or EON_API_KEY env var."⟩]) ∧
      (url ≠ "" → user ≠ "" → key ≠ "" → ∀ err,
        ((NewClient net url user key insecure).CheckAuth lib log).1 = some err →
        (eonProvider.Configure lib getenv net req log).1.Diagnostics =
          Diagnostics.Append [] req.Config.diags ++
            [⟨Severity.error, "EONAPI authentication failed", err⟩]) := by
  have hd := Diagnostics.no_error_Append_nil hcfg
  have hadd := fun (a b : String) =>
    Diagnostics.AddError_of_no_error (Diagnostics.Append [] req.Config.diags) a b hd
  have hconf : eonProvider.Configure lib getenv net req log =
      if url = "" then
        (⟨Diagnostics.Append [] req.Config.diags ++ [⟨Severity.error, "Missing url",
            "Set 'url' in provider block or EON_URL env var."⟩], none, none⟩, log)
      else if user = "" then
        (⟨Diagnostics.Append [] req.Config.diags ++ [⟨Severity.error, "Missing username",
            "Set 'username' in provider block or EON_USERNAME env var."⟩], none, none⟩, log)
      else if key = "" then
        (⟨Diagnostics.Append [] req.Config.diags ++ [⟨Severity.error, "Missing api_key",
            "Set 'api_key' in provider block or EON_API_KEY env var."⟩], none, none⟩, log)
      else
        match ((NewClient net url user key insecure).CheckAuth lib log).1 with
        | some err =>
          (⟨Diagnostics.Append [] req.Config.diags ++
              [⟨Severity.error, "EONAPI authentication failed", err⟩], none, none⟩,
            ((NewClient net url user key insecure).CheckAuth lib log).2)
        | none =>
          (⟨Diagnostics.Append [] req.Config.diags, some (NewClient net url user key insecure),
              some (NewClient net url user key insecure)⟩,
            ((NewClient net url user key insecure).CheckAuth lib log).2) := by
    simp only [eonProvider.Configure, hd, hurl, huser, hkey, hins, hadd]
    rfl
  rw [hconf]
  by_cases h1 : url = ""
  · simp [h1]
  · by_cases h2 : user = ""
    · simp [h1, h2]
    · by_cases h3 : key = ""
      · simp [h1, h2, h3]
      · cases h4 : ((NewClient net url user key insecure).CheckAuth lib log).1 with
        | some err => simp [h1, h2, h3]
        | none => simp [h1, h2, h3, hd]

/-- C15 (witness): url and api_key come from the provider block, the username
from the environment, and the network answers "Authorized": a client is handed out. -/
theorem configure_hands_client_iff_witness :
    (eonProvider.Configure sampleLib sampleGetenv (fun _ => constHTTP okResponse)
        ⟨⟨sampleProviderConfig, []⟩⟩ []).1.ResourceData.isSome = true :=
  (configure_hands_client_iff sampleLib sampleGetenv (fun _ => constHTTP okResponse)
    ⟨⟨sampleProviderConfig, []⟩⟩ [] "https://eon.example/eonapi/" "admin" "k3y" false
    rfl rfl rfl rfl rfl).1.mpr ⟨by decide, by decide, by decide, rfl⟩

theorem Configure_client (lib : Lib) (getenv : String → String) (net : Bool → HTTPClient)
    (req : ConfigureRequest) (log : List Call) (c : Client)
    (h : (eonProvider.Configure lib getenv net req log).1.ResourceData = some c) :
    c = NewClient net (envOrVal getenv req.Config.value.URL "EON_URL")
      (envOrVal getenv req.Config.value.Username "EON_USERNAME")
      (envOrVal getenv req.Config.value.APIKey "EON_API_KEY")
      (if !req.Config.value.Insecure.IsNull then req.Config.value.Insecure.ValueBool
        else false) := by
  unfold eonProvider.Configure at h
  by_cases hd : (Diagnostics.Append [] req.Config.diags).HasError = true
  · simp [hd] at h
  · by_cases h1 : envOrVal getenv req.Config.value.URL "EON_URL" = ""
    · simp [hd, h1] at h
    · by_cases h2 : envOrVal getenv req.Config.value.Username "EON_USERNAME" = ""
      · simp [hd, h1, h2] at h
      · by_cases h3 : envOrVal getenv req.Config.value.APIKey "EON_API_KEY" = ""
        · simp [hd, h1, h2, h3] at h
        · simp only [hd, h1, h2, h3, if_false, Bool.false_eq_true] at h
          split at h
          · simp at h
          · simp only [Option.some.injEq] at h
            exact h.symm

/-- C16: for each of url, username and api_key, the value Configure uses is
the configured attribute whenever that attribute is set (neither null nor unknown),
also when it is set to the empty string, and is the value of the environment
variable (EON_URL, EON_USERNAME, EON_API_KEY) when the attribute is null or unknown;
the client Configure hands out carries these values (the url with its trailing '/'
characters removed). -/
theorem envOrVal_fallback (getenv : String → String) :
    (∀ (s envKey : String), envOrVal getenv (TfString.known s) envKey = s) ∧
      (∀ envKey : String, envOrVal getenv (TfString.known "") envKey = "") ∧
      (∀ envKey : String, envOrVal getenv TfString.null envKey = getenv envKey) ∧
      (∀ envKey : String, envOrVal getenv TfString.unknown envKey = getenv envKey) ∧
      (∀ (lib : Lib) (net : Bool → HTTPClient) (req : ConfigureRequest) (log : List Call)
        (c : Client),
        (eonProvider.Configure lib getenv net req log).1.ResourceData = some c →
        c.BaseURL = stringsTrimRight (envOrVal getenv req.Config.value.URL "EON_URL") "/" ∧
          c.Username = envOrVal getenv req.Config.value.Username "EON_USERNAME" ∧
          c.APIKey = envOrVal getenv req.Config.value.APIKey "EON_API_KEY") := by
  refine ⟨fun _ _ => rfl, fun _ => rfl, fun _ => rfl, fun _ => rfl, ?_⟩
  intro lib net req log c h
  rw [Configure_client lib getenv net req log c h]
  exact ⟨rfl, rfl, rfl⟩

/-- C16 (witness): the client handed out for the sample provider block has the
url and the key of the block and the username of the environment, although EON_URL
is set too. -/
theorem envOrVal_fallback_witness :
    (NewClient (fun _ => constHTTP okResponse) "https://eon.example/eonapi/" "admin" "k3y"
        false).BaseURL = stringsTrimRight "https://eon.example/eonapi/" "/" ∧
      (NewClient (fun _ => constHTTP okResponse) "https://eon.example/eonapi/" "admin" "k3y"
        false).Username = "admin" ∧
      (NewClient (fun _ => constHTTP okResponse) "https://eon.example/eonapi/" "admin" "k3y"
        false).APIKey = "k3y" :=
  (envOrVal_fallback sampleGetenv).2.2.2.2 sampleLib (fun _ => constHTTP okResponse)
    ⟨⟨sampleProviderConfig, []⟩⟩ []
    (NewClient (fun _ => constHTTP okResponse) "https://eon.example/eonapi/" "admin" "k3y" false)
    rfl

/-! ## Write bodies -/

/-- C17: every write body is a flat mapping from string keys to string or
boolean values.  For every host record, `hostBody` has exactly the keys
templateHostName, hostName, hostIp, hostAlias, exportConfiguration, plus contactName
if and only if contact is set (not null, not unknown) and contactGroupName if and only
if contact_group is set; for every contact record, `contactBody` has exactly
contactName, contactAlias, contactMail, contactPager, exportConfiguration, plus
contactGroup if and only if contact_group is set; each value is the record's
corresponding attribute. -/
theorem write_bodies_flat (h : hostModel) (c : contactModel) :
    hostResource.hostBody h =
        [("templateHostName", Val.str h.Template.ValueString),
         ("hostName", Val.str h.Name.ValueString),
         ("hostIp", Val.str h.IP.ValueString),
         ("hostAlias", Val.str h.Alias.ValueString),
         ("exportConfiguration", Val.bool h.Export.ValueBool)] ++
        (if !h.Contact.IsNull && !h.Contact.IsUnknown then
          [("contactName", Val.str h.Contact.ValueString)] else []) ++
        (if !h.ContactGroup.IsNull && !h.ContactGroup.IsUnknown then
          [("contactGroupName", Val.str h.ContactGroup.ValueString)] else []) ∧
      (hostResource.hostBody h).keys.Nodup ∧
      ("contactName" ∈ (hostResource.hostBody h).keys ↔
        (!h.Contact.IsNull && !h.Contact.IsUnknown) = true) ∧
      ("contactGroupName" ∈ (hostResource.hostBody h).keys ↔
        (!h.ContactGroup.IsNull && !h.ContactGroup.IsUnknown) = true) ∧
      contactResource.contactBody c =
        [("contactName", Val.str c.Name.ValueString),
         ("contactAlias", Val.str c.Alias.ValueString),
         ("contactMail", Val.str c.Mail.ValueString),
         ("contactPager", Val.str c.Pager.ValueString),
         ("exportConfiguration", Val.bool c.Export.ValueBool)] ++
        (if !c.ContactGroup.IsNull && !c.ContactGroup.IsUnknown then
          [("contactGroup", Val.str c.ContactGroup.ValueString)] else []) ∧
      (contactResource.contactBody c).keys.Nodup ∧
      ("contactGroup" ∈ (contactResource.contactBody c).keys ↔
        (!c.ContactGroup.IsNull && !c.ContactGroup.IsUnknown) = true) ∧
      (∀ kv ∈ hostResource.hostBody h ++ contactResource.contactBody c,
        (∃ t, kv.2 = Val.str t) ∨ (∃ b, kv.2 = Val.bool b)) := by
  obtain ⟨hid, hname, hip, halias, htpl, hcontact, hgroup, hexp⟩ := h
  obtain ⟨cid, cname, calias, cmail, cpager, cgroup, cexp⟩ := c
  refine ⟨?_, ?_, ?_, ?_, ?_, ?_, ?_, ?_⟩
  · cases hcontact <;> cases hgroup <;>
      simp [hostResource.hostBody, Body.set, TfString.IsNull, TfString.IsUnknown]
  · cases hcontact <;> cases hgroup <;>
      simp [hostResource.hostBody, Body.set, Body.keys, TfString.IsNull, TfString.IsUnknown]
  · cases hcontact <;> cases hgroup <;>
      simp [hostResource.hostBody, Body.set, Body.keys, TfString.IsNull, TfString.IsUnknown]
  · cases hcontact <;> cases hgroup <;>
      simp [hostResource.hostBody, Body.set, Body.keys, TfString.IsNull, TfString.IsUnknown]
  · cases cgroup <;>
      simp [contactResource.contactBody, Body.set, TfString.IsNull, TfString.IsUnknown]
  · cases cgroup <;>
      simp [contactResource.contactBody, Body.set, Body.keys, TfString.IsNull,
        TfString.IsUnknown]
  · cases cgroup <;>
      simp [contactResource.contactBody, Body.set, Body.keys, TfString.IsNull,
        TfString.IsUnknown]
  · intro kv _
    cases kv.2 with
    | str t => exact Or.inl ⟨t, rfl⟩
    | bool b => exact Or.inr ⟨b, rfl⟩

/-- C18: in Host Update, if the delete call succeeds and the following create
call fails with error `err`, the calls made are the delete and the create and no
other, the adapter adds the diagnostic "Error recreating host" with `err` as detail
(a summary distinct from the delete failure's "Error deleting host for update"), and
the tracked state is not replaced. -/
theorem hostUpdate_create_failure (lib : Lib) (r : hostResource)
    (req : UpdateRequest hostModel) (log : List Call) (err : String)
    (hplan : req.Plan.diags.HasError = false)
    (hdel : (r.client.DeleteHost lib req.Plan.value.Name.ValueString false log).1.2 = none)
    (hcre : (r.client.CreateHost lib (hostResource.hostBody req.Plan.value)
      (r.client.DeleteHost lib req.Plan.value.Name.ValueString false log).2).1.2 = some err) :
    (hostResource.Update lib r req log).2 = log ++
        [Call.post "deleteHost" [("hostName", Val.str req.Plan.value.Name.ValueString),
            ("exportConfiguration", Val.bool false)],
         Call.post "createHost" (hostResource.hostBody req.Plan.value)] ∧
      (hostResource.Update lib r req log).1.Diagnostics =
        Diagnostics.Append [] req.Plan.diags ++
          [⟨Severity.error, "Error recreating host", err⟩] ∧
      "Error recreating host" ≠ "Error deleting host for update" ∧
      (hostResource.Update lib r req log).1.State = StateOut.untouched := by
  have hd := Diagnostics.no_error_Append_nil hplan
  have hupd : hostResource.Update lib r req log =
      (⟨(Diagnostics.Append [] req.Plan.diags).AddError "Error recreating host" err,
        StateOut.untouched⟩,
       (r.client.CreateHost lib (hostResource.hostBody req.Plan.value)
        (r.client.DeleteHost lib req.Plan.value.Name.ValueString false log).2).2) := by
    simp only [hostResource.Update, hd, hdel, hcre]
    rfl
  rw [hupd]
  refine ⟨?_, Diagnostics.AddError_of_no_error _ _ _ hd, by decide, rfl⟩
  simp [Client.CreateHost, Client.DeleteHost, Client.Post_log]

/-- C18 (witness): the network answers 200 except to the POST to createHost,
which it refuses. -/
theorem hostUpdate_create_failure_witness :
    (hostResource.Update sampleLib
        ⟨sampleClient (failOnHTTP "createHost" okResponse "connection refused")⟩
        ⟨⟨sampleHostPlan, []⟩, ⟨sampleHost, []⟩⟩ []).1.Diagnostics =
        [⟨Severity.error, "Error recreating host", "POST createHost: connection refused"⟩] ∧
      (hostResource.Update sampleLib
        ⟨sampleClient (failOnHTTP "createHost" okResponse "connection refused")⟩
        ⟨⟨sampleHostPlan, []⟩, ⟨sampleHost, []⟩⟩ []).1.State = StateOut.untouched :=
  have h := hostUpdate_create_failure sampleLib
    ⟨sampleClient (failOnHTTP "createHost" okResponse "connection refused")⟩
    ⟨⟨sampleHostPlan, []⟩, ⟨sampleHost, []⟩⟩ [] "POST createHost: connection refused"
    rfl rfl rfl
  ⟨h.2.1, h.2.2.2⟩

/-! ## Success of `decodeResp` and the encoding of a rename -/

/-- C19: `decodeResp` returns a nil error if and only if the status code is not
401, the body parses as the response envelope and the status code is below 400; in
that case the envelope it returns is exactly the one decoded from the body, with its
api_version, http_code, result, Status and EONAPI_KEY fields.  In particular a 3xx or
1xx status with a parseable body is reported as success. -/
theorem decodeResp_success_iff (lib : Lib) (status : Int) (body : String) :
    ((decodeResp lib ⟨status, .ok body⟩).2 = none ↔
        status ≠ 401 ∧ (∃ r, lib.jsonUnmarshal body = .ok r) ∧ status < 400) ∧
      (∀ r, lib.jsonUnmarshal body = .ok r → status < 400 →
        decodeResp lib ⟨status, .ok body⟩ = (some r, none)) ∧
      (∀ r, lib.jsonUnmarshal body = .ok r →
        ((100 ≤ status ∧ status ≤ 199) ∨ (300 ≤ status ∧ status ≤ 399)) →
        decodeResp lib ⟨status, .ok body⟩ = (some r, none)) := by
  have hok : ∀ r, lib.jsonUnmarshal body = .ok r → status < 400 →
      decodeResp lib ⟨status, .ok body⟩ = (some r, none) := by
    intro r hp hlt
    simp [decodeResp, hp, show ¬ status = 401 by omega, show ¬ (400 ≤ status) by omega]
  refine ⟨?_, hok, ?_⟩
  · constructor
    · intro h
      obtain ⟨b, r, hb, hlt, hp, _⟩ := (decodeResp_no_error_iff lib ⟨status, .ok body⟩).mp h
      simp only [Except.ok.injEq] at hb
      subst hb
      simp only at hlt
      exact ⟨by omega, ⟨r, hp⟩, hlt⟩
    · rintro ⟨_, ⟨r, hp⟩, hlt⟩
      rw [hok r hp hlt]
  · intro r hp hrange
    exact hok r hp (by omega)

/-- C19 (witness): a 302 and a 100 whose body carries an envelope are returned
with that envelope and a nil error. -/
theorem decodeResp_success_iff_witness :
    decodeResp sampleLib ⟨302, .ok authorizedBody⟩ = (some authorizedEnvelope, none) ∧
      decodeResp sampleLib ⟨100, .ok authorizedBody⟩ = (some authorizedEnvelope, none) :=
  ⟨(decodeResp_success_iff sampleLib 302 authorizedBody).2.2 authorizedEnvelope rfl
      (Or.inr ⟨by decide, by decide⟩),
   (decodeResp_success_iff sampleLib 100 authorizedBody).2.2 authorizedEnvelope rfl
      (Or.inl ⟨by decide, by decide⟩)⟩

theorem contact_updateBody_rename (plan state : contactModel) :
    ("newContactName" ∈ (contactResource.updateBody plan state).keys ↔
        plan.Name.ValueString ≠ state.Name.ValueString) ∧
      (plan.Name.ValueString ≠ state.Name.ValueString →
        (contactResource.updateBody plan state).get "newContactName" =
          some (Val.str plan.Name.ValueString)) := by
  obtain ⟨pid, pname, palias, pmail, ppager, pgroup, pexp⟩ := plan
  by_cases hne : pname.ValueString = state.Name.ValueString
  · cases pgroup <;>
      simp [contactResource.updateBody, contactResource.contactBody, Body.set, Body.keys,
        TfString.IsNull, TfString.IsUnknown, hne]
  · cases pgroup <;>
      simp [contactResource.updateBody, contactResource.contactBody, Body.set, Body.keys,
        Body.get, TfString.IsNull, TfString.IsUnknown, hne]

theorem contactGroup_updateBody_rename (plan state : contactGroupModel) :
    ("newContactGroupName" ∈ (contactGroupResource.updateBody plan state).keys ↔
        plan.Name.ValueString ≠ state.Name.ValueString) ∧
      (plan.Name.ValueString ≠ state.Name.ValueString →
        (contactGroupResource.updateBody plan state).get "newContactGroupName" =
          some (Val.str plan.Name.ValueString)) := by
  by_cases hne : plan.Name.ValueString = state.Name.ValueString
  · simp [contactGroupResource.updateBody, Body.keys, hne]
  · simp [contactGroupResource.updateBody, Body.set, Body.keys, Body.get, hne]

/-- C20: for every plan and state (read without error), the one client call an
Update makes is the modify call.  The Command modify body always contains the key
newCommandName, which holds the plan's name when the names differ and the empty
string when they are equal; the Contact and Contact Group modify bodies contain the
rename key (newContactName, newContactGroupName) if and only if the names differ,
and then it holds the plan's name. -/
theorem update_rename_encoding (lib : Lib) (log : List Call) :
    (∀ (r : commandResource) (req : UpdateRequest commandModel),
        req.Plan.diags.HasError = false → req.State.diags.HasError = false →
        ∃ body, (commandResource.Update lib r req log).2 =
            log ++ [Call.post "modifyCommand" body] ∧
          "newCommandName" ∈ body.keys ∧
          body.get "newCommandName" = some (Val.str
            (if req.Plan.value.Name.ValueString ≠ req.State.value.Name.ValueString then
              req.Plan.value.Name.ValueString else "")) ∧
          (req.Plan.value.Name.ValueString = req.State.value.Name.ValueString →
            body.get "newCommandName" = some (Val.str ""))) ∧
      (∀ (r : contactResource) (req : UpdateRequest contactModel),
        req.Plan.diags.HasError = false → req.State.diags.HasError = false →
        ∃ body, (contactResource.Update lib r req log).2 =
            log ++ [Call.post "modifyContact" body] ∧
          ("newContactName" ∈ body.keys ↔
            req.Plan.value.Name.ValueString ≠ req.State.value.Name.ValueString) ∧
          (req.Plan.value.Name.ValueString ≠ req.State.value.Name.ValueString →
            body.get "newContactName" = some (Val.str req.Plan.value.Name.ValueString))) ∧
      (∀ (r : contactGroupResource) (req : UpdateRequest contactGroupModel),
        req.Plan.diags.HasError = false → req.State.diags.HasError = false →
        ∃ body, (contactGroupResource.Update lib r req log).2 =
            log ++ [Call.post "modifyContactGroup" body] ∧
          ("newContactGroupName" ∈ body.keys ↔
            req.Plan.value.Name.ValueString ≠ req.State.value.Name.ValueString) ∧
          (req.Plan.value.Name.ValueString ≠ req.State.value.Name.ValueString →
            body.get "newContactGroupName" =
              some (Val.str req.Plan.value.Name.ValueString))) := by
  have hd : ∀ (p s : Diagnostics), p.HasError = false → s.HasError = false →
      ((Diagnostics.Append [] p).Append s).HasError = false := by
    intro p s hp hs
    rw [Diagnostics.HasError_Append, Diagnostics.HasError_Append_nil, hp, hs]
    rfl
  refine ⟨?_, ?_, ?_⟩
  · intro r req hp hs
    refine ⟨[("commandName", Val.str req.State.value.Name.ValueString),
      ("newCommandName", Val.str
        (if req.Plan.value.Name.ValueString ≠ req.State.value.Name.ValueString then
          req.Plan.value.Name.ValueString else "")),
      ("commandLine", Val.str req.Plan.value.CommandLine.ValueString),
      ("commandDescription", Val.str req.Plan.value.Description.ValueString)], ?_, ?_, ?_, ?_⟩
    · simp only [commandResource.Update, hd _ _ hp hs]
      simp only [Bool.false_eq_true, if_false, match_result_log]
      simp [Client.ModifyCommand, Client.Post_log]
    · simp [Body.keys]
    · simp [Body.get]
    · intro heq
      simp [Body.get, heq]
  · intro r req hp hs
    refine ⟨contactResource.updateBody req.Plan.value req.State.value, ?_,
      contact_updateBody_rename _ _⟩
    simp only [contactResource.Update, hd _ _ hp hs]
    simp only [Bool.false_eq_true, if_false, match_result_log]
    simp [Client.ModifyContact, Client.Post_log]
  · intro r req hp hs
    refine ⟨contactGroupResource.updateBody req.Plan.value req.State.value, ?_,
      contactGroup_updateBody_rename _ _⟩
    simp only [contactGroupResource.Update, hd _ _ hp hs]
    simp only [Bool.false_eq_true, if_false, match_result_log]
    simp [Client.ModifyContactGroup, Client.Post_log]

/-- C20 (witness): an Update of the command "a" and of the contact "a" that
keeps the name: the command body carries newCommandName, the contact body carries no
newContactName. -/
theorem update_rename_encoding_witness :
    (∃ body, (commandResource.Update sampleLib ⟨sampleClient (constHTTP okResponse)⟩
          ⟨⟨{ sampleCommand with Description := .known "http check" }, []⟩,
            ⟨sampleCommand, []⟩⟩ []).2 = [] ++ [Call.post "modifyCommand" body] ∧
        "newCommandName" ∈ body.keys ∧
        body.get "newCommandName" = some (Val.str (if "a" ≠ "a" then "a" else "")) ∧
        ("a" = "a" → body.get "newCommandName" = some (Val.str ""))) ∧
      (∃ body, (contactResource.Update sampleLib ⟨sampleClient (constHTTP okResponse)⟩
          ⟨⟨{ sampleContact with Pager := .known "0600000000" }, []⟩,
            ⟨sampleContact, []⟩⟩ []).2 = [] ++ [Call.post "modifyContact" body] ∧
        ("newContactName" ∈ body.keys ↔ "a" ≠ "a") ∧
        ("a" ≠ "a" → body.get "newContactName" = some (Val.str "a"))) :=
  ⟨(update_rename_encoding sampleLib []).1 ⟨sampleClient (constHTTP okResponse)⟩
      ⟨⟨{ sampleCommand with Description := .known "http check" }, []⟩, ⟨sampleCommand, []⟩⟩
      rfl rfl,
   (update_rename_encoding sampleLib []).2.1 ⟨sampleClient (constHTTP okResponse)⟩
      ⟨⟨{ sampleContact with Pager := .known "0600000000" }, []⟩, ⟨sampleContact, []⟩⟩
      rfl rfl⟩

/-- C17 (witness): the body of a host with a contact and no contact group. -/
theorem write_bodies_flat_witness :
    hostResource.hostBody { sampleHost with Contact := .known "oncall" } =
        [("templateHostName", Val.str "GENERIC_HOST"), ("hostName", Val.str "h1"),
         ("hostIp", Val.str "10.0.0.1"), ("hostAlias", Val.str ""),
         ("exportConfiguration", Val.bool false), ("contactName", Val.str "oncall")] ∧
      "contactGroupName" ∉ (hostResource.hostBody { sampleHost with Contact := .known "oncall" }).keys :=
  ⟨(write_bodies_flat { sampleHost with Contact := .known "oncall" } sampleContact).1,
   fun hmem => Bool.false_ne_true
    ((write_bodies_flat { sampleHost with Contact := .known "oncall" }
      sampleContact).2.2.2.1.mp hmem)⟩

/-! ## Host Update and the prior state -/

theorem hostBody_exportConfiguration (m : hostModel) :
    (hostResource.hostBody m).get "exportConfiguration" = some (Val.bool m.Export.ValueBool) := by
  obtain ⟨mid, mname, mip, malias, mtpl, mcontact, mgroup, mexp⟩ := m
  cases mcontact <;> cases mgroup <;>
    simp [hostResource.hostBody, Body.set, Body.get, TfString.IsNull, TfString.IsUnknown]

theorem hostUpdate_calls (lib : Lib) (r : hostResource) (req : UpdateRequest hostModel)
    (log : List Call) :
    (hostResource.Update lib r req log).2 = log ∨
      (hostResource.Update lib r req log).2 = log ++
        [Call.post "deleteHost" [("hostName", Val.str req.Plan.value.Name.ValueString),
          ("exportConfiguration", Val.bool false)]] ∨
      (hostResource.Update lib r req log).2 = log ++
        [Call.post "deleteHost" [("hostName", Val.str req.Plan.value.Name.ValueString),
          ("exportConfiguration", Val.bool false)],
         Call.post "createHost" (hostResource.hostBody req.Plan.value)] := by
  unfold hostResource.Update
  by_cases hd : (Diagnostics.Append [] req.Plan.diags).HasError = true
  · left
    simp [hd]
  · right
    simp only [hd, Bool.false_eq_true, if_false]
    cases hdel : (r.client.DeleteHost lib req.Plan.value.Name.ValueString false log).1.2 with
    | some err =>
      left
      simp [Client.DeleteHost, Client.Post_log]
    | none =>
      right
      simp only [match_result_log]
      simp [Client.CreateHost, Client.DeleteHost, Client.Post_log]

theorem hostUpdate_calls_of_plan_ok (lib : Lib) (r : hostResource)
    (req : UpdateRequest hostModel) (log : List Call)
    (hplan : req.Plan.diags.HasError = false) :
    (hostResource.Update lib r req log).2 = log ++
        [Call.post "deleteHost" [("hostName", Val.str req.Plan.value.Name.ValueString),
          ("exportConfiguration", Val.bool false)]] ∨
      (hostResource.Update lib r req log).2 = log ++
        [Call.post "deleteHost" [("hostName", Val.str req.Plan.value.Name.ValueString),
          ("exportConfiguration", Val.bool false)],
         Call.post "createHost" (hostResource.hostBody req.Plan.value)] := by
  have hd := Diagnostics.no_error_Append_nil hplan
  unfold hostResource.Update
  simp only [hd, Bool.false_eq_true, if_false]
  cases hdel : (r.client.DeleteHost lib req.Plan.value.Name.ValueString false log).1.2 with
  | some err =>
    left
    simp [Client.DeleteHost, Client.Post_log]
  | none =>
    right
    simp only [match_result_log]
    simp [Client.CreateHost, Client.DeleteHost, Client.Post_log]

/-- C21: Host Update never reads the prior state: for one and the same plan,
two requests with any two prior states give the same response and the same calls.
The calls it makes are, in this order, at most the delete for the plan's name with
exportConfiguration = false and the create with the body built from the plan, whose
exportConfiguration is the plan's export flag; and whenever the plan is read without
error the delete, with exportConfiguration = false, is the first call made. -/
theorem hostUpdate_ignores_state (lib : Lib) (r : hostResource) (log : List Call)
    (plan s1 s2 : TfGet hostModel) :
    hostResource.Update lib r ⟨plan, s1⟩ log = hostResource.Update lib r ⟨plan, s2⟩ log ∧
      (∃ calls, (hostResource.Update lib r ⟨plan, s1⟩ log).2 = log ++ calls ∧
        calls <+: [Call.post "deleteHost" [("hostName", Val.str plan.value.Name.ValueString),
            ("exportConfiguration", Val.bool false)],
          Call.post "createHost" (hostResource.hostBody plan.value)]) ∧
      (hostResource.hostBody plan.value).get "exportConfiguration" =
        some (Val.bool plan.value.Export.ValueBool) ∧
      (hostResource.hostBody plan.value).get "hostName" =
        some (Val.str plan.value.Name.ValueString) ∧
      (plan.diags.HasError = false →
        ∃ rest, (hostResource.Update lib r ⟨plan, s1⟩ log).2 = log ++
          Call.post "deleteHost" [("hostName", Val.str plan.value.Name.ValueString),
            ("exportConfiguration", Val.bool false)] :: rest) := by
  refine ⟨rfl, ?_, hostBody_exportConfiguration plan.value, ?_, ?_⟩
  · rcases hostUpdate_calls lib r ⟨plan, s1⟩ log with h | h | h
    · exact ⟨[], by simpa using h, List.nil_prefix⟩
    · exact ⟨_, h, ⟨[_], rfl⟩⟩
    · exact ⟨_, h, List.prefix_refl _⟩
  · obtain ⟨v, ds⟩ := plan
    obtain ⟨mid, mname, mip, malias, mtpl, mcontact, mgroup, mexp⟩ := v
    cases mcontact <;> cases mgroup <;>
      simp [hostResource.hostBody, Body.set, Body.get, TfString.IsNull, TfString.IsUnknown]
  · intro hplan
    rcases hostUpdate_calls_of_plan_ok lib r ⟨plan, s1⟩ log hplan with h | h
    · exact ⟨[], h⟩
    · exact ⟨[_], h⟩

/-- C21 (witness): the plan and the tracked state both have the export flag
set; the delete call still carries exportConfiguration = false and the create body
carries true. -/
theorem hostUpdate_ignores_state_witness :
    (hostResource.Update sampleLib ⟨sampleClient (constHTTP okResponse)⟩
        ⟨⟨{ sampleHostPlan with Export := .known true }, []⟩,
          ⟨{ sampleHost with Export := .known true }, []⟩⟩ []).2 =
      [Call.post "deleteHost" [("hostName", Val.str "h1"), ("exportConfiguration", Val.bool false)],
       Call.post "createHost"
        [("templateHostName", Val.str "GENERIC_HOST"), ("hostName", Val.str "h1"),
         ("hostIp", Val.str "10.0.0.2"), ("hostAlias", Val.str ""),
         ("exportConfiguration", Val.bool true)]] ∧
      (∃ rest, (hostResource.Update sampleLib ⟨sampleClient (constHTTP okResponse)⟩
        ⟨⟨{ sampleHostPlan with Export := .known true }, []⟩,
          ⟨{ sampleHost with Export := .known true }, []⟩⟩ []).2 = [] ++
        Call.post "deleteHost"
          [("hostName", Val.str "h1"), ("exportConfiguration", Val.bool false)] :: rest) :=
  ⟨by decide,
   (hostUpdate_ignores_state sampleLib ⟨sampleClient (constHTTP okResponse)⟩ []
      ⟨{ sampleHostPlan with Export := .known true }, []⟩
      ⟨{ sampleHost with Export := .known true }, []⟩
      ⟨sampleHost, []⟩).2.2.2.2 rfl⟩

end Eon
